import Mathlib

/-!
Verification of the daavfx trading-dashboard configuration codec.

This file gives a shallow embedding of the two Python modules the claims
are about and proves/refutes the specification claims against it:

* `src/main_ecosystem_trading/APPS/dashboard/validate_export.py`
  (naming tables, expected-key generation, structural JSON validator,
  `.set`-file decoder, parity validator);
* `src/generate_massive_setfile.py` (the flat-file generator).

Machine strings are modelled as Lean `String` (logically a list of
characters); Python `str.strip`/`str.split('=', 1)`/`str.lower` are
embedded as executable character-list functions with the same behaviour
on the ASCII data these programs process.  Python dicts are modelled as
insertion-ordered association lists with overwrite-in-place update,
which is exactly CPython's observable dict behaviour.  File I/O is
modelled by passing the result of reading the file (`Except` of the
decoded text) to the functions that the Python code runs on it.
-/

/-! ### Character-level string helpers (Python `str` primitives) -/

/-- Python `str.lower()` restricted to its ASCII behaviour: lower-case every
character.  All inputs in this code base are ASCII. -/
def strLower (s : String) : String := ⟨s.data.map Char.toLower⟩

/-- Python `str.strip()` on a character list: drop leading and trailing
whitespace.  (Python also strips a few rare control characters that never
occur in this code base's data.) -/
def stripChars (l : List Char) : List Char :=
  ((l.dropWhile Char.isWhitespace).reverse.dropWhile Char.isWhitespace).reverse

/-- Python `str.strip()` as a `String` function. -/
def pyStrip (s : String) : String := ⟨stripChars s.data⟩

/-! ### `validate_export.py`: naming tables and expected-key generation -/

/-- Association-list lookup mirroring Python `dict.get` on a literal dict
(first — equivalently only — matching key wins). -/
def lookupS : List (String × String) → String → Option String
  | [], _ => none
  | (k, v) :: rest, key => if k = key then some v else lookupS rest key

/-- `LOGIC_ABBREVIATIONS` from validate_export.py. -/
def LOGIC_ABBREVIATIONS : List (String × String) :=
  [("Power", "P"), ("Repower", "R"), ("Scalper", "S"),
   ("Stopper", "ST"), ("STO", "STO"), ("SCA", "SCA"), ("RPO", "RPO")]

/-- `ENGINE_PREFIXES` from validate_export.py. -/
def ENGINE_PREFIXES : List (String × String) :=
  [("A", ""), ("B", "B"), ("C", "C")]

/-- `REQUIRED_LOGIC_FIELDS` from validate_export.py (V17.04+). -/
def REQUIRED_LOGIC_FIELDS : List String :=
  ["logic_name", "logic_id", "enabled",
   "initial_lot", "multiplier", "grid",
   "trail_method", "trail_value", "trail_start", "trail_step", "trail_step_method",
   "close_targets", "order_count_reference", "reset_lot_on_restart",
   "use_tp", "tp_mode", "tp_value", "use_sl", "sl_mode", "sl_value",
   "reverse_enabled", "hedge_enabled", "reverse_scale", "hedge_scale",
   "reverse_reference", "hedge_reference",
   "trail_step_mode", "trail_step_cycle", "trail_step_balance",
   "close_partial", "close_partial_cycle", "close_partial_mode",
   "close_partial_balance", "close_partial_trail_step_mode"]

/-- `REQUIRED_GROUP_FIELDS` from validate_export.py (V17.04+). -/
def REQUIRED_GROUP_FIELDS : List String :=
  ["group_number", "enabled",
   "reverse_mode", "hedge_mode", "hedge_reference", "entry_delay_bars",
   "logics"]

/-- `get_suffix` from validate_export.py: engine prefix (default `""`) ++
logic abbreviation (default `"P"`) ++ group number. -/
def get_suffix (engine_id : String) (group : Nat) (logic_name : String) : String :=
  ((lookupS ENGINE_PREFIXES engine_id).getD "") ++
    ((lookupS LOGIC_ABBREVIATIONS logic_name).getD "P") ++ Nat.repr group

/-- `get_short` from validate_export.py: engine prefix ++ logic abbreviation. -/
def get_short (engine_id : String) (logic_name : String) : String :=
  ((lookupS ENGINE_PREFIXES engine_id).getD "") ++
    ((lookupS LOGIC_ABBREVIATIONS logic_name).getD "P")

/-- `generate_expected_set_keys` from validate_export.py: all expected `.set`
file variable names for one (engine, group, logic). -/
def generate_expected_set_keys (engine_id : String) (group : Nat)
    (logic_name : String) : List String :=
  let sfx := get_suffix engine_id group logic_name
  let short := get_short engine_id logic_name
  let g := Nat.repr group
  ["gInput_Initial_loT_" ++ sfx,
   "gInput_Mult_" ++ sfx,
   "gInput_Grid_" ++ sfx,
   "gInput_Trail_" ++ sfx,
   "gInput_TrailValue_" ++ sfx,
   "gInput_Trail_Start_" ++ sfx,
   "gInput_TrailStep_" ++ sfx,
   "gInput_TrailStepMethod_" ++ sfx,
   "gInput_TrailStepMode_" ++ sfx,
   "gInput_TrailStepCycle_" ++ sfx,
   "gInput_TrailStepBalance_" ++ sfx,
   "gInput_CloseTargets_" ++ sfx,
   "gInput_" ++ sfx ++ "_OrderCountReference",
   "gInput_ResetLotOnRestart_" ++ sfx,
   "gInput_G" ++ g ++ "_UseTP_" ++ short,
   "gInput_G" ++ g ++ "_TP_Mode_" ++ short,
   "gInput_G" ++ g ++ "_TP_Value_" ++ short,
   "gInput_G" ++ g ++ "_UseSL_" ++ short,
   "gInput_G" ++ g ++ "_SL_Mode_" ++ short,
   "gInput_G" ++ g ++ "_SL_Value_" ++ short,
   "gInput_G" ++ g ++ "_" ++ short ++ "_ReverseEnabled",
   "gInput_G" ++ g ++ "_" ++ short ++ "_HedgeEnabled",
   "gInput_G" ++ g ++ "_Scale_" ++ short ++ "_Reverse",
   "gInput_G" ++ g ++ "_Scale_" ++ short ++ "_Hedge",
   "gInput_G" ++ g ++ "_" ++ short ++ "_ReverseReference",
   "gInput_G" ++ g ++ "_" ++ short ++ "_HedgeReference",
   "gInput_ClosePartial_" ++ sfx,
   "gInput_ClosePartialCycle_" ++ sfx,
   "gInput_ClosePartialMode_" ++ sfx,
   "gInput_ClosePartialBalance_" ++ sfx,
   "gInput_ClosePartialTrailStepMode_" ++ sfx]
  ++ (if strLower logic_name ≠ "power" then
        ["gInput_StartLevel_" ++ sfx, "gInput_LastLot_" ++ sfx]
      else [])
  ++ (if group = 1 then
        ["gInput_G1_TriggerType_" ++ short,
         "gInput_G1_TriggerBars_" ++ short,
         "gInput_G1_TriggerMinutes_" ++ short]
      else [])

/-- `generate_group_level_keys` from validate_export.py. -/
def generate_group_level_keys (group : Nat) : List String :=
  ["gInput_Group" ++ Nat.repr group ++ "_ReverseMode",
   "gInput_Group" ++ Nat.repr group ++ "_HedgeMode",
   "gInput_Group" ++ Nat.repr group ++ "_HedgeReference",
   "gInput_Group" ++ Nat.repr group ++ "_EntryDelayBars"]

/-! ### `validate_export.py`: JSON document model and structural validator -/

/-- Model of the JSON values produced by Python's `json.load` (numbers are
modelled by integers — every number in the dashboard documents is one). -/
inductive JVal where
  | null
  | bool (b : Bool)
  | num (n : Int)
  | str (s : String)
  | arr (elems : List JVal)
  | obj (entries : List (String × JVal))

/-- Python `dict.get key` on an object's entry list (documents built by
`json.load` have distinct keys, so first match is the only match). -/
def getEntry : List (String × JVal) → String → Option JVal
  | [], _ => none
  | (k, v) :: rest, key => if k = key then some v else getEntry rest key

/-- Coerce a `dict.get(key, [])` result to the list Python then iterates.
Faithful whenever the entry is absent or holds a JSON array (the well-formed
case); a non-list truthy value would instead crash the Python validator. -/
def asArr : Option JVal → List JVal
  | some (.arr xs) => xs
  | _ => []

/-- View a JSON value as an object's entry list (the validator only reaches
this on dict values in the well-formed case). -/
def asObj : JVal → List (String × JVal)
  | .obj entries => entries
  | _ => []

/-- Python `key in dict` membership on an object's entry list. -/
def hasField (entries : List (String × JVal)) (key : String) : Bool :=
  (getEntry entries key).isSome

/-- Python `str(x)`/f-string rendering of a `dict.get` result, for the value
shapes that actually occur in the validator's messages (absent keys render as
`None`; strings render verbatim; numbers and booleans in Python style). -/
def pyStr : Option JVal → String
  | none => "None"
  | some .null => "None"
  | some (.bool true) => "True"
  | some (.bool false) => "False"
  | some (.num n) => n.repr
  | some (.str s) => s
  | some (.arr _) => "[...]"
  | some (.obj _) => "object"

/-- Python `g_num == 1` where `g_num` is a `dict.get` result: true for the
integer 1 and for `True` (Python's `True == 1`). -/
def jEqOne : Option JVal → Bool
  | some (.num 1) => true
  | some (.bool true) => true
  | _ => false

/-- Python `engine_id not in ["A", "B", "C"]` is false exactly when the value
is one of those three strings. -/
def engineIdExpected : Option JVal → Bool
  | some (.str s) => s = "A" ∨ s = "B" ∨ s = "C"
  | _ => false

/-- `l_name = logic.get("logic_name", "Unknown")` (string values; a present
non-string value would crash Python's later `l_name.lower()`, excluded by
`WFdoc`). -/
def logicNameOf (entries : List (String × JVal)) : String :=
  match getEntry entries "logic_name" with
  | some (.str s) => s
  | _ => "Unknown"

/-- The error lines `validate_json_structure` appends for one logic object
(required fields, then the non-Power pair, then the Group-1 trigger fields),
in source order. -/
def logicErrors (eid : String) (gnum : Option JVal) (logic : JVal) : List String :=
  let entries := asObj logic
  let lname := logicNameOf entries
  (REQUIRED_LOGIC_FIELDS.filter (fun f => ¬ hasField entries f)).map
    (fun f => "Engine " ++ eid ++ " Group " ++ pyStr gnum ++ " " ++ lname ++
      ": Missing field '" ++ f ++ "'")
  ++ (if strLower lname ≠ "power" then
        (if ¬ hasField entries "start_level" then
          ["Engine " ++ eid ++ " Group " ++ pyStr gnum ++ " " ++ lname ++
            ": Missing 'start_level' (non-Power)"] else [])
        ++ (if ¬ hasField entries "last_lot" then
          ["Engine " ++ eid ++ " Group " ++ pyStr gnum ++ " " ++ lname ++
            ": Missing 'last_lot' (non-Power)"] else [])
      else [])
  ++ (if jEqOne gnum then
        (if ¬ hasField entries "trigger_type" then
          ["Engine " ++ eid ++ " Group 1 " ++ lname ++ ": Missing 'trigger_type'"]
         else [])
        ++ (if ¬ hasField entries "trigger_bars" then
          ["Engine " ++ eid ++ " Group 1 " ++ lname ++ ": Missing 'trigger_bars'"]
         else [])
        ++ (if ¬ hasField entries "trigger_minutes" then
          ["Engine " ++ eid ++ " Group 1 " ++ lname ++ ": Missing 'trigger_minutes'"]
         else [])
      else [])

/-- The error lines `validate_json_structure` appends for one group object:
missing group-level required fields, then the errors of each of its logics. -/
def groupErrors (eid : String) (group : JVal) : List String :=
  let entries := asObj group
  let gnum := getEntry entries "group_number"
  (REQUIRED_GROUP_FIELDS.filter (fun f => ¬ hasField entries f)).map
    (fun f => "Engine " ++ eid ++ " Group " ++ pyStr gnum ++
      ": Missing group field '" ++ f ++ "'")
  ++ (asArr (getEntry entries "logics")).flatMap (logicErrors eid gnum)

/-- The error lines `validate_json_structure` appends for one engine object. -/
def engineErrors (engine : JVal) : List String :=
  let entries := asObj engine
  let eid := pyStr (getEntry entries "engine_id")
  (asArr (getEntry entries "groups")).flatMap (groupErrors eid)

/-- The warning lines `validate_json_structure` appends for one engine object
(unexpected id, then group count, then per-group logic counts), in source
order. -/
def engineWarnings (engine : JVal) : List String :=
  let entries := asObj engine
  let eidV := getEntry entries "engine_id"
  let eid := pyStr eidV
  let groups := asArr (getEntry entries "groups")
  (if ¬ engineIdExpected eidV then ["Unexpected engine ID: " ++ eid] else [])
  ++ (if groups.length ≠ 20 then
        ["Engine " ++ eid ++ " has " ++ Nat.repr groups.length ++
          " groups (expected 20)"] else [])
  ++ groups.flatMap (fun group =>
      let gEntries := asObj group
      let logics := asArr (getEntry gEntries "logics")
      if logics.length ≠ 7 then
        ["Engine " ++ eid ++ " Group " ++ pyStr (getEntry gEntries "group_number")
          ++ " has " ++ Nat.repr logics.length ++ " logics (expected 7)"]
      else [])

/-- `validate_json_structure` from validate_export.py.  The Python walk pushes
to `errors` and `warnings` interleaved in one pass; the two result lists equal
the concatenation of the per-engine contributions in walk order, which is what
is written here. -/
def validate_json_structure (data : List (String × JVal)) :
    List String × List String :=
  let engines := asArr (getEntry data "engines")
  if engines.isEmpty then (["No engines found in config"], [])
  else (engines.flatMap engineErrors, engines.flatMap engineWarnings)

/-- Well-formedness of a logic object for the validator: it is a dict whose
`logic_name`, if present, is a string (Python would crash on
`l_name.lower()` otherwise). -/
def WFlogic : JVal → Bool
  | .obj entries =>
      match getEntry entries "logic_name" with
      | none => true
      | some (.str _) => true
      | _ => false
  | _ => false

/-- Well-formedness of a group object: a dict whose `group_number`, if
present, is a number, and whose `logics`, if present, is an array of
well-formed logic objects. -/
def WFgroup : JVal → Bool
  | .obj entries =>
      (match getEntry entries "group_number" with
       | none => true
       | some (.num _) => true
       | _ => false)
      && (match getEntry entries "logics" with
          | none => true
          | some (.arr ls) => ls.all WFlogic
          | _ => false)
  | _ => false

/-- Well-formedness of an engine object: a dict whose `engine_id`, if present,
is a string, and whose `groups`, if present, is an array of well-formed group
objects. -/
def WFengine : JVal → Bool
  | .obj entries =>
      (match getEntry entries "engine_id" with
       | none => true
       | some (.str _) => true
       | _ => false)
      && (match getEntry entries "groups" with
          | none => true
          | some (.arr gs) => gs.all WFgroup
          | _ => false)
  | _ => false

/-- Well-formedness of a whole document: the `engines` entry, if present, is
an array of well-formed engine objects.  On well-formed documents the
embedding `validate_json_structure` computes exactly what the Python function
returns (ill-formed documents can crash the Python walk instead). -/
def WFdoc (data : List (String × JVal)) : Bool :=
  match getEntry data "engines" with
  | none => true
  | some (.arr es) => es.all WFengine
  | _ => false

/-! ### `validate_export.py`: flat-file decoder and parity validator -/

/-- The branch structure of the decoder's per-line loop applied to the
already-stripped line: skip when empty or starting with `;`, otherwise split
at the first `=` (lines without `=` are skipped silently), strip key and
value. -/
def lineEntryChars (line : List Char) : Option (String × String) :=
  if line.isEmpty then none
  else if line.head? = some ';' then none
  else if line.contains '=' then
    some (⟨stripChars (line.takeWhile (· ≠ '='))⟩,
          ⟨stripChars ((line.dropWhile (· ≠ '=')).drop 1)⟩)
  else none

/-- One step of the decoder's per-line loop: Python `line.strip()`, then
`lineEntryChars`.  Returns the (key, value) pair the line contributes, if
any. -/
def lineEntry (raw : String) : Option (String × String) :=
  lineEntryChars (stripChars raw.data)

/-- `values[key] = value` on an insertion-ordered dict modelled as an
association list: overwrite in place if the key exists, else append. -/
def upsert : List (String × String) → String → String → List (String × String)
  | [], k, v => [(k, v)]
  | (k', v') :: rest, k, v =>
      if k' = k then (k, v) :: rest else (k', v') :: upsert rest k v

/-- Python `values[key]` read access on the decoded dict (None-free model:
`none` when the key is absent). -/
def mapGet : List (String × String) → String → Option String
  | [], _ => none
  | (k', v) :: rest, k => if k' = k then some v else mapGet rest k

/-- Python `key in values` on the decoded dict. -/
def hasKey (values : List (String × String)) (key : String) : Bool :=
  values.any (fun p => p.1 = key)

/-- The decoder's line loop from `parse_set_file`: fold the per-line entries
into the dict, later occurrences of a key overwriting earlier ones. -/
def parse_set_lines (ls : List String) : List (String × String) :=
  ls.foldl
    (fun values raw =>
      match lineEntry raw with
      | none => values
      | some (k, v) => upsert values k v)
    []

/-- Python `str.splitlines` on a character list (ASCII newlines `\n`, `\r`,
`\r\n`; no trailing empty line). -/
def splitlinesAux : List Char → List Char → List (List Char)
  | '\r' :: '\n' :: rest, acc => acc.reverse :: splitlinesAux rest []
  | '\r' :: rest, acc => acc.reverse :: splitlinesAux rest []
  | '\n' :: rest, acc => acc.reverse :: splitlinesAux rest []
  | c :: rest, acc => splitlinesAux rest (c :: acc)
  | [], acc => if acc.isEmpty then [] else [acc.reverse]

/-- Python `text.splitlines()`. -/
def splitlines (s : String) : List String :=
  (splitlinesAux s.data []).map (fun l => ⟨l⟩)

/-- `parse_set_file` from validate_export.py.  The argument is the outcome of
opening, reading and byte-decoding the file (UTF-16-LE behind a BOM, UTF-8
otherwise): `Except.error` when any of that raises.  The Python function
catches every exception, prints a diagnostic, and returns the dict built so
far — which is empty, because the whole read happens before the loop — so the
error branch returns the empty mapping rather than propagating the failure. -/
def parse_set_file (contents : Except String String) : List (String × String) :=
  match contents with
  | .error _ => []
  | .ok text => parse_set_lines (splitlines text)

/-- The canonical logic names iterated by `validate_set_file_parity`. -/
def PARITY_LOGIC_NAMES : List String :=
  ["Power", "Repower", "Scalper", "Stopper", "STO", "SCA", "RPO"]

/-- `validate_set_file_parity` from validate_export.py, parameterised by the
decoded mapping `set_values = parse_set_file set_file`.  If the mapping is
empty the function reports a parse failure and returns at once; otherwise it
checks, for the full cross-product of 3 engines, groups 1..20 and the 7
canonical logics, that every group-level and logic-level expected key is
present, accumulating one error line per missing key. -/
def validate_set_file_parity (set_file : String)
    (set_values : List (String × String)) : List String × List String :=
  if set_values.isEmpty then
    (["Failed to parse .set file: " ++ set_file], [])
  else
    ((["A", "B", "C"].flatMap fun engine_id =>
        (List.range' 1 20).flatMap fun group =>
          ((generate_group_level_keys group).filter
              (fun k => ! hasKey set_values k)).map
            (fun k => "Missing group key: " ++ k)
          ++ PARITY_LOGIC_NAMES.flatMap fun logic_name =>
              ((generate_expected_set_keys engine_id group logic_name).filter
                  (fun k => ! hasKey set_values k)).map
                (fun k => "Missing logic key: " ++ k)),
     [])

/-! ### `generate_massive_setfile.py`: the flat-file generator -/

/-- `GROUPS` from generate_massive_setfile.py. -/
def GEN_GROUPS : Nat := 15

/-- `ENGINES` from generate_massive_setfile.py. -/
def GEN_ENGINES : List String := ["A", "B", "C"]

/-- `LOGICS` from generate_massive_setfile.py (note `Scalp`, not `Scalper`). -/
def GEN_LOGICS : List String :=
  ["Power", "Repower", "Scalp", "Stopper", "STO", "SCA", "RPO"]

/-- `DIRECTIONS` from generate_massive_setfile.py. -/
def GEN_DIRECTIONS : List String := ["Buy", "Sell"]

/-- `LOGIC_SUFFIX` from generate_massive_setfile.py — different abbreviations
from the validator's `LOGIC_ABBREVIATIONS`. -/
def LOGIC_SUFFIX : List (String × String) :=
  [("Power", "P"), ("Repower", "R"), ("Scalp", "S"), ("Stopper", "T"),
   ("STO", "O"), ("SCA", "C"), ("RPO", "X")]

/-- Python float repr of the exact half `n / 2` (all trail values in the
generator are halves of integers, printed with one decimal place, which is
also what the generator's `:.1f` prints on them). -/
def halfStr (n : Nat) : String :=
  if n % 2 = 0 then Nat.repr (n / 2) ++ ".0" else Nat.repr (n / 2) ++ ".5"

/-- Python float repr of the exact quarter `n / 4`. -/
def quarterStr (n : Nat) : String :=
  if n % 4 = 0 then Nat.repr (n / 4) ++ ".0"
  else if n % 4 = 1 then Nat.repr (n / 4) ++ ".25"
  else if n % 4 = 2 then Nat.repr (n / 4) ++ ".5"
  else Nat.repr (n / 4) ++ ".75"

/-- Python float repr of the integer-valued float `n.0`. -/
def wholeStr (n : Nat) : String := Nat.repr n ++ ".0"

/-- `generate_logic_inputs` from generate_massive_setfile.py: the lines for a
single logic-direction, in source order.  Every line is the f-string
`f"{prefix}..."`, so the list is the common variable name prefix mapped over
the per-line tails; float values are rendered through `halfStr`/`quarterStr`/
`wholeStr`, which print exactly what Python's formatting prints on the exact
halves and quarters produced here. -/
def generate_logic_inputs (group_num : Nat)
    (engine logic direction : String) : List String :=
  let sfx := (lookupS LOGIC_SUFFIX logic).getD ""
  let pfx := "gInput_" ++ Nat.repr group_num ++ "_" ++ engine ++ sfx ++ "_" ++ direction
  let is_power := logic = "Power"
  let is_buy := direction = "Buy"
  ([ "_Enabled=1",
     if is_buy then "_AllowBuy=1" else "_AllowBuy=0",
     if is_buy then "_AllowSell=0" else "_AllowSell=1",
     "_InitialLot=0.01",
     "_LastLot=0.10",
     "_Multiplier=1.20",
     "_Grid=" ++ Nat.repr (100 + group_num * 20),
     "_GridBehavior=0",
     "_TrailMethod=0",
     "_TrailValue=" ++ halfStr (10 + group_num),
     "_TrailStart=" ++ wholeStr (group_num * 2),
     "_TrailStep=" ++ quarterStr (20 + group_num) ]
   ++ (List.range' 1 7).flatMap (fun step =>
     [ "_TrailStep" ++ Nat.repr step ++ "=" ++ halfStr (10 + step * 10 + group_num),
       "_TrailStepMethod" ++ Nat.repr step ++ "=0",
       "_TrailStepMode" ++ Nat.repr step ++ "=0",
       "_TrailStepCycle" ++ Nat.repr step ++ "=" ++ Nat.repr step,
       "_TrailStepBalance" ++ Nat.repr step ++ "=0.0" ])
   ++ [ "_UseTP=1",
        "_TakeProfit=" ++ wholeStr (50 + group_num * 10),
        "_TPMode=0",
        "_UseSL=1",
        "_StopLoss=" ++ wholeStr (30 + group_num * 5),
        "_SLMode=0",
        "_BreakEvenMode=0",
        "_BreakEvenActivation=" ++ wholeStr (20 + group_num * 2),
        "_BreakEvenLock=" ++ wholeStr (10 + group_num),
        "_BreakEvenTrail=0",
        "_ProfitTrailEnabled=0",
        "_ProfitTrailPeakDrop=50.0",
        "_ProfitTrailLock=30.0",
        "_ProfitTrailCloseOnTrigger=0",
        "_ProfitTrailUseBreakEven=0",
        "_TriggerType=0",
        "_TriggerBars=0",
        "_TriggerMinutes=0",
        "_TriggerPips=0.0",
        "_ReverseReference=0",
        "_HedgeReference=0",
        "_OrderCountRefLogic=0",
        "_ReverseScale=1.0",
        "_HedgeScale=1.0",
        "_ReverseEnabled=0",
        "_HedgeEnabled=0",
        "_CloseTargets=0",
        "_OrderCountRef=0",
        if is_power then "_StartLevel=0" else "_StartLevel=" ++ Nat.repr group_num,
        "_ResetLotOnRestart=1",
        "_RestartPolicy=0" ]
   ++ (List.range' 1 4).flatMap (fun slot =>
     [ "_PartialEnabled" ++ Nat.repr slot ++ "=0",
       "_PartialCycle" ++ Nat.repr slot ++ "=" ++ Nat.repr (slot + 1),
       "_PartialMode" ++ Nat.repr slot ++ "=1",
       "_PartialBalance" ++ Nat.repr slot ++ "=1",
       "_PartialTrailMode" ++ Nat.repr slot ++ "=0",
       "_PartialTrigger" ++ Nat.repr slot ++ "=0",
       "_PartialProfitThreshold" ++ Nat.repr slot ++ "=0.0",
       "_PartialHours" ++ Nat.repr slot ++ "=0" ])
  ).map (fun t => pfx ++ t)

/-- `generate_global_inputs` from generate_massive_setfile.py. -/
def generate_global_inputs : List String :=
  [ "gInput_MagicNumber=777",
    "gInput_MagicNumberBuy=777",
    "gInput_MagicNumberSell=888",
    "gInput_EnableLogs=0",
    "gInput_AllowBuy=1",
    "gInput_AllowSell=1",
    "gInput_MaxSlippage=3",
    "gInput_MaxSpread=50",
    "gInput_MaxOrders=100",
    "gInput_MaxDailyLoss=0",
    "gInput_MaxDrawdown=0",
    "gInput_AutoCompounding=0",
    "gInput_CompoundingPercent=0.0",
    "gInput_RiskPercent=1.0",
    "gInput_LotSize=0.01",
    "gInput_UseMoneyManagement=0",
    "gInput_FixedLot=0.01",
    "gInput_TradeMonday=1",
    "gInput_TradeTuesday=1",
    "gInput_TradeWednesday=1",
    "gInput_TradeThursday=1",
    "gInput_TradeFriday=1",
    "gInput_TradeSaturday=0",
    "gInput_TradeSunday=0",
    "gInput_StartHour=0",
    "gInput_EndHour=24",
    "gInput_UseSessionFilter=0",
    "gInput_SessionStart=0",
    "gInput_SessionEnd=24",
    "gInput_UseTrendFilter=0",
    "gInput_TrendPeriod=14",
    "gInput_UseVolatilityFilter=0",
    "gInput_VolatilityPeriod=20",
    "gInput_UseNewsFilter=0",
    "gInput_NewsImpact=3",
    "gInput_MinsBeforeNews=30",
    "gInput_MinsAfterNews=30",
    "gInput_UseVirtualPending=0",
    "gInput_VirtualPendingPips=10.0",
    "gInput_OrderComment=DAAVILEFX",
    "gInput_RequireLicense=0",
    "gInput_LicenseServer=https://license.daavfx.com",
    "gInput_ShowUI=1",
    "gInput_ShowTrails=0",
    "gInput_EnableDebug=0",
    "gInput_LogLevel=1",
    "gInput_SaveStats=1",
    "gInput_StatsFile=daavilefx_stats.csv" ]

/-- The lines of one group's section of the massive setfile: the two group
header comments, then for every engine, logic and direction the logic's
inputs followed by a blank separator line, then a blank line — exactly the
body of the generator's `for group in range(1, GROUPS + 1)` loop. -/
def groupSectionLines (group : Nat) : List String :=
  ["; Group " ++ Nat.repr group,
   "; ==========================================="]
  ++ (GEN_ENGINES.flatMap fun engine =>
        GEN_LOGICS.flatMap fun logic =>
          GEN_DIRECTIONS.flatMap fun direction =>
            generate_logic_inputs group engine logic direction ++ [""])
  ++ [""]

/-- The header comment block of the massive setfile (`now` stands for the
`datetime.now()` timestamp interpolated into the second comment; `gcount`
stands for the module constant `GROUPS`). -/
def genHeaderLines (gcount : Nat) (now : String) : List String :=
  ["; DAAVILEFX MASSIVE CONFIGURATION SETFILE",
   "; Generated: " ++ now,
   "; Version: 18.0 MASSIVE",
   "; Platform: MT4",
   ";",
   "; Structure: " ++ Nat.repr gcount ++ " groups × " ++
     Nat.repr GEN_ENGINES.length ++ " engines × " ++
     Nat.repr GEN_LOGICS.length ++ " logics × " ++
     Nat.repr GEN_DIRECTIONS.length ++ " directions",
   "; Total Logic-Directions: " ++
     Nat.repr (gcount * GEN_ENGINES.length * GEN_LOGICS.length * GEN_DIRECTIONS.length),
   "; Fields per Logic: 88",
   "; Total Logic Inputs: " ++
     Nat.repr (gcount * GEN_ENGINES.length * GEN_LOGICS.length *
       GEN_DIRECTIONS.length * 88),
   "; Global Inputs: ~50",
   "; GRAND TOTAL: ~55,500 inputs",
   ""]

/-- The global-settings section of the massive setfile. -/
def genGlobalSectionLines : List String :=
  ["; ===========================================",
   "; GLOBAL SETTINGS",
   "; ===========================================",
   ""]
  ++ generate_global_inputs
  ++ [""]

/-- The section comments introducing the logic configurations. -/
def genLogicHeaderLines : List String :=
  ["; ===========================================",
   "; LOGIC CONFIGURATIONS (630 logic-directions)",
   "; ===========================================",
   ""]

/-- The footer comment block, including the source's `total_inputs`
accumulator plus the number of global inputs. -/
def genFooterLines (gcount : Nat) : List String :=
  ["; ===========================================",
   "; END OF CONFIGURATION",
   "; Total Inputs Generated: " ++
     Nat.repr (((List.range' 1 gcount).flatMap fun group =>
         GEN_ENGINES.flatMap fun engine =>
           GEN_LOGICS.flatMap fun logic =>
             GEN_DIRECTIONS.map fun direction =>
               (generate_logic_inputs group engine logic direction).length).sum
       + generate_global_inputs.length),
   "; ==========================================="]

/-- `generate_massive_setfile` from generate_massive_setfile.py, as the list
of lines the function joins with `"\n"`.  `gcount` stands for the module
constant `GROUPS`, which the source fixes to `GEN_GROUPS = 15` (it is a
parameter here so that the round-trip claim's "matching group count"
hypothesis can be expressed). -/
def generate_massive_setfile_lines (gcount : Nat) (now : String) : List String :=
  genHeaderLines gcount now
  ++ genGlobalSectionLines
  ++ genLogicHeaderLines
  ++ (List.range' 1 gcount).flatMap groupSectionLines
  ++ genFooterLines gcount

/-! ### Concrete documents used to exercise the structural validator -/

/-- A document with a single engine `A` carrying 20 well-shaped groups of 7
(empty) logics: every cardinality the validator warns about is satisfied,
while the engine identifier set is `{A}` rather than `{A,B,C}`. -/
def singleEngineDoc : List (String × JVal) :=
  [("engines", JVal.arr [JVal.obj
    [("engine_id", JVal.str "A"),
     ("groups", JVal.arr ((List.range' 1 20).map fun i =>
       JVal.obj [("group_number", JVal.num (Int.ofNat i)),
                 ("logics", JVal.arr (List.replicate 7 (JVal.obj [])))]))]])]

/-- A document whose single group 5 holds one logic named `Power` and one
named `Repower`, both without `start_level`/`last_lot`. -/
def powerPairDoc : List (String × JVal) :=
  [("engines", JVal.arr [JVal.obj
    [("engine_id", JVal.str "A"),
     ("groups", JVal.arr [JVal.obj
       [("group_number", JVal.num 5),
        ("logics", JVal.arr
          [JVal.obj [("logic_name", JVal.str "Power")],
           JVal.obj [("logic_name", JVal.str "Repower")]])]])]])]

/-- A document whose single group 1 holds one logic (named `Power`) missing
the trigger fields. -/
def group1Doc : List (String × JVal) :=
  [("engines", JVal.arr [JVal.obj
    [("engine_id", JVal.str "A"),
     ("groups", JVal.arr [JVal.obj
       [("group_number", JVal.num 1),
        ("logics", JVal.arr [JVal.obj [("logic_name", JVal.str "Power")]])]])]])]

/-- A document whose single group 2 holds one logic missing every field:
used to check that no trigger error is raised outside group 1. -/
def group2Doc : List (String × JVal) :=
  [("engines", JVal.arr [JVal.obj
    [("engine_id", JVal.str "A"),
     ("groups", JVal.arr [JVal.obj
       [("group_number", JVal.num 2),
        ("logics", JVal.arr [JVal.obj [("logic_name", JVal.str "Power")]])]])]])]

/-! ### Infrastructure lemmas: characters, strings, the decoder -/

theorem string_eq_of_data {a b : String} (h : a.data = b.data) : a = b := by
  cases a; cases b; simp_all

theorem data_mk (l : List Char) : (String.mk l).data = l := rfl

theorem isDigit_not_ws {c : Char} (h : c.isDigit = true) :
    c.isWhitespace = false := by
  rcases hw : c.isWhitespace with _ | _
  · rfl
  · simp [Char.isWhitespace] at hw
    rcases hw with ((rfl | rfl) | rfl) | rfl <;> simp at h

theorem digitChar_isDigit {m : Nat} (h : m < 10) :
    (Nat.digitChar m).isDigit = true := by
  interval_cases m <;> decide

theorem toDigitsCore_ten_digits (fuel : Nat) :
    ∀ (n : Nat) (acc : List Char), (∀ c ∈ acc, c.isDigit = true) →
      ∀ c ∈ Nat.toDigitsCore 10 fuel n acc, c.isDigit = true := by
  induction fuel with
  | zero => intro n acc hacc c hc; rw [Nat.toDigitsCore] at hc; exact hacc c hc
  | succ fuel ih =>
      intro n acc hacc c hc
      rw [Nat.toDigitsCore] at hc
      by_cases hz : n / 10 = 0
      · simp only [hz, if_pos rfl] at hc
        rcases List.mem_cons.mp hc with rfl | hmem
        · exact digitChar_isDigit (Nat.mod_lt _ (by norm_num))
        · exact hacc c hmem
      · simp only [if_neg hz] at hc
        refine ih (n / 10) _ ?_ c hc
        intro c' hc'
        rcases List.mem_cons.mp hc' with rfl | hmem
        · exact digitChar_isDigit (Nat.mod_lt _ (by norm_num))
        · exact hacc c' hmem

theorem repr_digits (n : Nat) : ∀ c ∈ (Nat.repr n).data, c.isDigit = true := by
  intro c hc
  exact toDigitsCore_ten_digits (n + 1) n [] (by simp) c hc

theorem toDigitsCore_ne_nil (fuel : Nat) :
    ∀ (n : Nat) (acc : List Char), acc ≠ [] →
      Nat.toDigitsCore 10 fuel n acc ≠ [] := by
  induction fuel with
  | zero => intro n acc hacc; rw [Nat.toDigitsCore]; exact hacc
  | succ fuel ih =>
      intro n acc hacc
      rw [Nat.toDigitsCore]
      by_cases hz : n / 10 = 0
      · simp [hz]
      · simp only [if_neg hz]
        exact ih (n / 10) _ (by simp)

theorem repr_ne_nil (n : Nat) : (Nat.repr n).data ≠ [] := by
  show Nat.toDigitsCore 10 (n + 1) n [] ≠ []
  rw [Nat.toDigitsCore]
  by_cases hz : n / 10 = 0
  · simp [hz]
  · simp only [if_neg hz]
    exact toDigitsCore_ne_nil n (n / 10) _ (by simp)

theorem dropWhile_all_false {p : α → Bool} {l : List α}
    (h : ∀ x ∈ l, p x = false) : l.dropWhile p = l := by
  induction l with
  | nil => rfl
  | cons c t ih =>
      rw [List.dropWhile_cons, h c (by simp)]
      simp

theorem takeWhile_all_true {p : α → Bool} {l : List α}
    (h : ∀ x ∈ l, p x = true) : l.takeWhile p = l :=
  List.takeWhile_eq_self_iff.mpr h

theorem takeWhile_append_of_all {p : α → Bool} {a b : List α}
    (h : ∀ x ∈ a, p x = true) :
    (a ++ b).takeWhile p = a ++ b.takeWhile p := by
  rw [List.takeWhile_append, takeWhile_all_true h]
  simp

/-- Stripping a list that starts with a run of non-whitespace characters
keeps that run as a prefix: `stripChars (a ++ b) = a ++ r` for some `r`. -/
theorem stripChars_append_shape {a b : List Char} (hne : a ≠ [])
    (hws : ∀ c ∈ a, c.isWhitespace = false) :
    ∃ r, stripChars (a ++ b) = a ++ r := by
  unfold stripChars
  rw [List.dropWhile_append, dropWhile_all_false hws]
  rw [if_neg (by simp [hne])]
  rw [List.reverse_append, List.dropWhile_append]
  by_cases hbe : (b.reverse.dropWhile Char.isWhitespace).isEmpty = true
  · rw [if_pos hbe,
      dropWhile_all_false (fun c hc => hws c (List.mem_reverse.mp hc))]
    exact ⟨[], by simp⟩
  · rw [if_neg hbe]
    exact ⟨(b.reverse.dropWhile Char.isWhitespace).reverse, by simp⟩

/-- If a raw line starts with a run of non-whitespace, non-`=` characters,
then any key the decoder extracts from it starts with that same run. -/
theorem lineEntry_key_shape {raw : String} {a b : List Char}
    (hdata : raw.data = a ++ b) (hne : a ≠ [])
    (hws : ∀ c ∈ a, c.isWhitespace = false)
    (heq : ∀ c ∈ a, c ≠ '=') :
    ∀ k v, lineEntry raw = some (k, v) → ∃ r, k.data = a ++ r := by
  intro k v h
  unfold lineEntry at h
  rw [hdata] at h
  obtain ⟨r₀, hr₀⟩ := stripChars_append_shape hne hws
  rw [hr₀] at h
  unfold lineEntryChars at h
  rw [if_neg (by simp [hne])] at h
  by_cases hsemi : (a ++ r₀).head? = some ';'
  · rw [if_pos hsemi] at h; exact absurd h (by simp)
  · rw [if_neg hsemi] at h
    by_cases hcont : (a ++ r₀).contains '=' = true
    · rw [if_pos hcont] at h
      simp only [Option.some.injEq, Prod.mk.injEq] at h
      obtain ⟨hk, _⟩ := h
      have htake : (a ++ r₀).takeWhile (· ≠ '=') = a ++ r₀.takeWhile (· ≠ '=') :=
        takeWhile_append_of_all (by
          intro x hx
          simpa using heq x hx)
      obtain ⟨r₁, hr₁⟩ := stripChars_append_shape hne hws
        (b := r₀.takeWhile (· ≠ '='))
      refine ⟨r₁, ?_⟩
      rw [← hk, data_mk, htake, hr₁]
    · rw [if_neg hcont] at h; exact absurd h (by simp)

/-- A raw line whose text starts with `;` contributes nothing to the decoder. -/
theorem lineEntry_comment {raw : String} {t : List Char}
    (hdata : raw.data = ';' :: t) : lineEntry raw = none := by
  unfold lineEntry
  rw [hdata]
  obtain ⟨r₀, hr₀⟩ := stripChars_append_shape (a := [';']) (b := t)
    (by simp) (by simp)
  simp only [List.singleton_append] at hr₀
  rw [hr₀]
  unfold lineEntryChars
  simp

theorem hasKey_upsert {m : List (String × String)} {k k' v : String} :
    hasKey (upsert m k' v) k = true ↔ k' = k ∨ hasKey m k = true := by
  induction m with
  | nil => simp [upsert, hasKey]
  | cons p rest ih =>
      obtain ⟨pk, pv⟩ := p
      by_cases hpk : pk = k'
      · subst hpk
        simp [upsert, hasKey]
      · unfold upsert
        rw [if_neg hpk]
        simp only [hasKey, List.any_cons] at ih ⊢
        by_cases hk : pk = k
        · simp [hk]
        · simp only [hk, decide_eq_true_eq, Bool.false_or, decide_eq_false_iff_not,
            not_false_eq_true]
          simpa [hasKey] using ih

theorem parse_foldl_mem {k : String} : ∀ (ls : List String)
    (init : List (String × String)),
    hasKey (ls.foldl (fun values raw =>
      match lineEntry raw with
      | none => values
      | some (k', v) => upsert values k' v) init) k = true →
    hasKey init k = true ∨ ∃ raw ∈ ls, ∃ v, lineEntry raw = some (k, v) := by
  intro ls
  induction ls with
  | nil => intro init h; exact Or.inl h
  | cons raw rest ih =>
      intro init h
      rw [List.foldl_cons] at h
      rcases hle : lineEntry raw with _ | ⟨k', v'⟩
      · rw [hle] at h
        rcases ih init h with h' | ⟨raw', hraw', v'', hv''⟩
        · exact Or.inl h'
        · exact Or.inr ⟨raw', by simp [hraw'], v'', hv''⟩
      · rw [hle] at h
        rcases ih _ h with h' | ⟨raw', hraw', v'', hv''⟩
        · rcases hasKey_upsert.mp h' with rfl | hinit
          · exact Or.inr ⟨raw, by simp, v', hle⟩
          · exact Or.inl hinit
        · exact Or.inr ⟨raw', by simp [hraw'], v'', hv''⟩

/-- Completeness direction of the decoder: any key contributed by some line
is recorded in the mapping. -/
theorem parse_mem_of_line {k : String} : ∀ (ls : List String)
    (init : List (String × String)),
    (hasKey init k = true ∨ ∃ raw ∈ ls, ∃ v, lineEntry raw = some (k, v)) →
    hasKey (ls.foldl (fun values raw =>
      match lineEntry raw with
      | none => values
      | some (k', v) => upsert values k' v) init) k = true := by
  intro ls
  induction ls with
  | nil =>
      intro init h
      rcases h with h | ⟨raw, hraw, _⟩
      · exact h
      · exact absurd hraw (by simp)
  | cons raw rest ih =>
      intro init h
      rw [List.foldl_cons]
      rcases hle : lineEntry raw with _ | ⟨k', v'⟩
      · rcases h with h | ⟨raw', hraw', v'', hv''⟩
        · exact ih init (Or.inl h)
        · rcases List.mem_cons.mp hraw' with rfl | hmem
          · rw [hle] at hv''; exact absurd hv'' (by simp)
          · exact ih init (Or.inr ⟨raw', hmem, v'', hv''⟩)
      · rcases h with h | ⟨raw', hraw', v'', hv''⟩
        · exact ih _ (Or.inl (hasKey_upsert.mpr (Or.inr h)))
        · rcases List.mem_cons.mp hraw' with rfl | hmem
          · rw [hle] at hv''
            simp only [Option.some.injEq, Prod.mk.injEq] at hv''
            exact ih _ (Or.inl (hasKey_upsert.mpr (Or.inl hv''.1)))
          · exact ih _ (Or.inr ⟨raw', hmem, v'', hv''⟩)

theorem parse_set_lines_hasKey {ls : List String} {k : String}
    (h : hasKey (parse_set_lines ls) k = true) :
    ∃ raw ∈ ls, ∃ v, lineEntry raw = some (k, v) := by
  rcases parse_foldl_mem ls [] h with h' | h'
  · exact absurd h' (by simp [hasKey])
  · exact h'

theorem parse_set_lines_hasKey_of {ls : List String} {k v : String}
    {raw : String} (hraw : raw ∈ ls) (h : lineEntry raw = some (k, v)) :
    hasKey (parse_set_lines ls) k = true :=
  parse_mem_of_line ls [] (Or.inr ⟨raw, hraw, v, h⟩)

theorem parse_set_lines_ne_nil {ls : List String} {k v raw : String}
    (hraw : raw ∈ ls) (h : lineEntry raw = some (k, v)) :
    (parse_set_lines ls).isEmpty = false := by
  have := parse_set_lines_hasKey_of hraw h
  rcases hp : parse_set_lines ls with _ | _
  · rw [hp] at this; simp [hasKey] at this
  · simp

theorem no_key_of_semi {raw : String} (h : ∃ t, raw.data = ';' :: t) :
    ∀ k v, lineEntry raw = some (k, v) → False := by
  intro k v hkv
  obtain ⟨t, ht⟩ := h
  rw [lineEntry_comment ht] at hkv
  cases hkv

theorem semi_append {s : String} (r : String) (h : ∃ t, s.data = ';' :: t) :
    ∃ u, (s ++ r).data = ';' :: u := by
  obtain ⟨t, ht⟩ := h
  exact ⟨t ++ r.data, by rw [String.data_append, ht]; rfl⟩

theorem no_key_empty : ∀ k v, lineEntry "" = some (k, v) → False := by
  intro k v hkv
  rw [show lineEntry "" = none from rfl] at hkv
  cases hkv

/-- A key whose characters start with `gInput_` followed by the decimal
digits of a number cannot be the group-level key
`gInput_Group1_ReverseMode`, whose eighth character is the letter `G`. -/
theorem key_shape_ne_groupkey {k : String} {g : Nat} {r : List Char}
    (hk : k.data = ("gInput_".data ++ (Nat.repr g).data) ++ r) :
    k ≠ "gInput_Group1_ReverseMode" := by
  intro hkk
  subst hkk
  have hKK : ("gInput_Group1_ReverseMode" : String).data =
      "gInput_".data ++ ('G' :: "roup1_ReverseMode".data) := rfl
  rw [hKK, List.append_assoc] at hk
  have htail := List.append_cancel_left hk
  rcases hrg : (Nat.repr g).data with _ | ⟨c, cs⟩
  · exact repr_ne_nil g hrg
  · rw [hrg] at htail
    have hc : c = 'G' := by
      have := congrArg List.head? htail
      simpa using this.symm
  -- a digit character is never the letter G
    have hd : c.isDigit = true := repr_digits g c (by rw [hrg]; simp)
    rw [hc] at hd
    exact absurd hd (by decide)

/-- Every line of `generate_logic_inputs` is the logic's variable name
stem `gInput_<group>_<engine><suffix>_<direction>` followed by a tail. -/
theorem gli_data_shape {g : Nat} {e l d raw : String}
    (hmem : raw ∈ generate_logic_inputs g e l d) :
    ∃ t, raw.data = ("gInput_".data ++ (Nat.repr g).data) ++ ('_' :: t) := by
  simp only [generate_logic_inputs, List.mem_map] at hmem
  obtain ⟨tail, _, rfl⟩ := hmem
  refine ⟨e.data ++ ((lookupS LOGIC_SUFFIX l).getD "").data ++
    ('_' :: (d.data ++ tail.data)), ?_⟩
  have hu : ("_" : String).data = ['_'] := rfl
  simp [String.data_append, hu, List.append_assoc]

/-- No line of `generate_logic_inputs` decodes to the group-level key
`gInput_Group1_ReverseMode`. -/
theorem gli_no_groupkey {g : Nat} {e l d raw : String}
    (hmem : raw ∈ generate_logic_inputs g e l d) :
    ∀ k v, lineEntry raw = some (k, v) → k ≠ "gInput_Group1_ReverseMode" := by
  intro k v hkv
  obtain ⟨t, hdata⟩ := gli_data_shape hmem
  have hgi : ("gInput_" : String).data = ['g', 'I', 'n', 'p', 'u', 't', '_'] := rfl
  have hshape := lineEntry_key_shape (a := "gInput_".data ++ (Nat.repr g).data)
    (b := '_' :: t) hdata
    (by simp [hgi])
    (by
      intro c hc
      rcases List.mem_append.mp hc with h7 | hg
      · rw [hgi] at h7
        fin_cases h7 <;> decide
      · exact isDigit_not_ws (repr_digits g c hg))
    (by
      intro c hc
      rcases List.mem_append.mp hc with h7 | hg
      · rw [hgi] at h7
        fin_cases h7 <;> decide
      · intro hceq
        have := repr_digits g c hg
        rw [hceq] at this
        exact absurd this (by decide))
    k v hkv
  obtain ⟨r, hr⟩ := hshape
  exact key_shape_ne_groupkey hr

set_option maxHeartbeats 1000000 in
theorem globals_no_groupkey : ∀ raw ∈ generate_global_inputs, ∀ k v,
    lineEntry raw = some (k, v) → k ≠ "gInput_Group1_ReverseMode" := by
  have H : generate_global_inputs.all (fun raw =>
      (lineEntry raw).all (fun kv => kv.1 != "gInput_Group1_ReverseMode")) = true := by
    decide
  intro raw hmem k v hkv
  have hr := List.all_eq_true.mp H raw hmem
  rw [hkv] at hr
  simp only [Option.all_some] at hr
  exact bne_iff_ne.mp hr

/-- No line of the generated massive setfile decodes to the group-level key
`gInput_Group1_ReverseMode` — the generator's naming scheme never produces
it. -/
theorem gen_no_groupkey (gcount : Nat) (now : String) :
    ∀ raw ∈ generate_massive_setfile_lines gcount now, ∀ k v,
      lineEntry raw = some (k, v) → k ≠ "gInput_Group1_ReverseMode" := by
  intro raw hraw k v hkv
  simp only [generate_massive_setfile_lines, List.mem_append] at hraw
  rcases hraw with (((hh | hg) | hlh) | hfm) | hft
  · simp only [genHeaderLines, List.mem_cons, List.not_mem_nil, or_false] at hh
    rcases hh with rfl | rfl | rfl | rfl | rfl | rfl | rfl | rfl | rfl | rfl | rfl | rfl
    · exact (no_key_of_semi ⟨_, rfl⟩ _ _ hkv).elim
    · exact (no_key_of_semi (semi_append _ ⟨_, rfl⟩) _ _ hkv).elim
    · exact (no_key_of_semi ⟨_, rfl⟩ _ _ hkv).elim
    · exact (no_key_of_semi ⟨_, rfl⟩ _ _ hkv).elim
    · exact (no_key_of_semi ⟨_, rfl⟩ _ _ hkv).elim
    · exact (no_key_of_semi
        (by (repeat apply semi_append); exact ⟨_, rfl⟩) _ _ hkv).elim
    · exact (no_key_of_semi
        (by (repeat apply semi_append); exact ⟨_, rfl⟩) _ _ hkv).elim
    · exact (no_key_of_semi ⟨_, rfl⟩ _ _ hkv).elim
    · exact (no_key_of_semi
        (by (repeat apply semi_append); exact ⟨_, rfl⟩) _ _ hkv).elim
    · exact (no_key_of_semi ⟨_, rfl⟩ _ _ hkv).elim
    · exact (no_key_of_semi ⟨_, rfl⟩ _ _ hkv).elim
    · exact (no_key_empty _ _ hkv).elim
  · simp only [genGlobalSectionLines, List.mem_append, List.mem_cons,
      List.not_mem_nil, or_false] at hg
    rcases hg with ((rfl | rfl | rfl | rfl) | hgl) | rfl
    · exact (no_key_of_semi ⟨_, rfl⟩ _ _ hkv).elim
    · exact (no_key_of_semi ⟨_, rfl⟩ _ _ hkv).elim
    · exact (no_key_of_semi ⟨_, rfl⟩ _ _ hkv).elim
    · exact (no_key_empty _ _ hkv).elim
    · exact globals_no_groupkey raw hgl k v hkv
    · exact (no_key_empty _ _ hkv).elim
  · simp only [genLogicHeaderLines, List.mem_cons, List.not_mem_nil, or_false] at hlh
    rcases hlh with rfl | rfl | rfl | rfl
    · exact (no_key_of_semi ⟨_, rfl⟩ _ _ hkv).elim
    · exact (no_key_of_semi ⟨_, rfl⟩ _ _ hkv).elim
    · exact (no_key_of_semi ⟨_, rfl⟩ _ _ hkv).elim
    · exact (no_key_empty _ _ hkv).elim
  · rw [List.mem_flatMap] at hfm
    obtain ⟨g, _, hraw'⟩ := hfm
    simp only [groupSectionLines, List.mem_append, List.mem_cons,
      List.not_mem_nil, or_false] at hraw'
    rcases hraw' with ((rfl | rfl) | hfl) | rfl
    · exact (no_key_of_semi (semi_append _ ⟨_, rfl⟩) _ _ hkv).elim
    · exact (no_key_of_semi ⟨_, rfl⟩ _ _ hkv).elim
    · rw [List.mem_flatMap] at hfl
      obtain ⟨e, _, hfl⟩ := hfl
      rw [List.mem_flatMap] at hfl
      obtain ⟨l, _, hfl⟩ := hfl
      rw [List.mem_flatMap] at hfl
      obtain ⟨d, _, hfl⟩ := hfl
      rcases List.mem_append.mp hfl with hgli | hone
      · exact gli_no_groupkey hgli k v hkv
      · rcases List.mem_singleton.mp hone with rfl
        exact (no_key_empty _ _ hkv).elim
    · exact (no_key_empty _ _ hkv).elim
  · simp only [genFooterLines, List.mem_cons, List.not_mem_nil, or_false] at hft
    rcases hft with rfl | rfl | rfl | rfl
    · exact (no_key_of_semi ⟨_, rfl⟩ _ _ hkv).elim
    · exact (no_key_of_semi ⟨_, rfl⟩ _ _ hkv).elim
    · exact (no_key_of_semi
        (by (repeat apply semi_append); exact ⟨_, rfl⟩) _ _ hkv).elim
    · exact (no_key_of_semi ⟨_, rfl⟩ _ _ hkv).elim

/-- The parity validator always reports `gInput_Group1_ReverseMode` missing
on a decoded massive setfile, whatever group count the generator is run
with: the generator never emits a `gInput_Group<g>_...` group-level key. -/
theorem gen_missing_group_key (gcount : Nat) (now : String) :
    "Missing group key: gInput_Group1_ReverseMode" ∈
      (validate_set_file_parity "MASSIVE_DAAVILEFX_COMPLETE_v18.set"
        (parse_set_lines (generate_massive_setfile_lines gcount now))).1 := by
  have hmm : "gInput_MagicNumber=777" ∈ generate_massive_setfile_lines gcount now := by
    unfold generate_massive_setfile_lines genGlobalSectionLines
    refine List.mem_append_left _ ?_
    refine List.mem_append_left _ ?_
    refine List.mem_append_left _ ?_
    refine List.mem_append_right _ ?_
    refine List.mem_append_left _ ?_
    refine List.mem_append_right _ ?_
    decide
  have hle : lineEntry "gInput_MagicNumber=777" = some ("gInput_MagicNumber", "777") := by
    decide
  have hne := parse_set_lines_ne_nil hmm hle
  have hnk : hasKey (parse_set_lines (generate_massive_setfile_lines gcount now))
      "gInput_Group1_ReverseMode" = false := by
    rcases h : hasKey (parse_set_lines (generate_massive_setfile_lines gcount now))
        "gInput_Group1_ReverseMode" with _ | _
    · rfl
    · obtain ⟨raw, hraw, v, hv⟩ := parse_set_lines_hasKey h
      exact absurd rfl (gen_no_groupkey gcount now raw hraw _ v hv)
  unfold validate_set_file_parity
  rw [if_neg (by simp [hne])]
  refine List.mem_flatMap.mpr ⟨"A", by simp, ?_⟩
  refine List.mem_flatMap.mpr ⟨1, by decide, ?_⟩
  refine List.mem_append_left _ ?_
  refine List.mem_map.mpr ⟨"gInput_Group1_ReverseMode", ?_, by decide⟩
  refine List.mem_filter.mpr ⟨by decide, ?_⟩
  rw [hnk]
  rfl

/-- C1 (counterexample): round-trip self-consistency fails on the code.  Even
with the generator's group count set to 20 to match the parity validator's
hard-coded groups 1..20 (and the engine set {A,B,C} already matching), the
parity validator on the decoded generated file does NOT return zero errors:
the generator writes keys named `gInput_<group>_<engine><suffix>_<direction>_
<Field>` while the validator expects the `gInput_..._<suffix>` /
`gInput_G<g>_...` / `gInput_Group<g>_...` scheme, so expected keys are
missing. -/
theorem c1_roundtrip_counterexample :
    (validate_set_file_parity "MASSIVE_DAAVILEFX_COMPLETE_v18.set"
      (parse_set_lines
        (generate_massive_setfile_lines 20 "2026-01-01 00:00:00"))).1 ≠ [] := by
  intro h
  have hmem := gen_missing_group_key 20 "2026-01-01 00:00:00"
  rw [h] at hmem
  cases hmem

/-- C1 (amended): `validate_set_file_parity` on a flat file produced by
`generate_massive_setfile` always reports missing-key errors — for every
group count (including the matching 20) and timestamp, the error list
contains `Missing group key: gInput_Group1_ReverseMode`, because the
generator's key-naming scheme never produces the validator's group-level
keys. -/
theorem c1_roundtrip_reports_missing_keys (gcount : Nat) (now : String) :
    "Missing group key: gInput_Group1_ReverseMode" ∈
      (validate_set_file_parity "MASSIVE_DAAVILEFX_COMPLETE_v18.set"
        (parse_set_lines (generate_massive_setfile_lines gcount now))).1 :=
  gen_missing_group_key gcount now

theorem key_head_merge {lit pre : String} (h : lit = pre) (z : String) :
    lit ++ z = pre ++ z := by rw [h]

theorem append3_merge (Y a b c z : String) {lit : String} (h : lit = a ++ b ++ c) :
    Y ++ lit ++ z = Y ++ a ++ b ++ c ++ z := by
  subst h
  simp only [String.append_assoc]

theorem append_end_merge (Y a b : String) {lit : String} (h : lit = a ++ b) :
    Y ++ lit = Y ++ a ++ b := by
  subst h
  simp only [String.append_assoc]

theorem suffix_of_append3 {k pre f suf : String} (h : k = pre ++ f ++ suf) :
    suf.data <:+ k.data := by
  subst h
  rw [String.data_append]
  exact List.suffix_append _ _

/-- C2 (amended): every key produced by `generate_expected_set_keys` falls
into exactly one of six templates — `gInput_<Field>_<suffix>` for the plain
per-logic fields (including the non-Power StartLevel/LastLot pair);
`gInput_G<group>_<Field>_<short>` for the TP/SL fields and (in group 1) the
trigger fields; `gInput_G<group>_<short>_<Field>` — abbreviation BEFORE the
field name — for the Reverse/Hedge enables and references;
`gInput_G<group>_Scale_<short>_<Reverse|Hedge>` for the scale pair; and
`gInput_<suffix>_OrderCountReference` with the suffix in the middle.  The
claim's uniform `gInput_G<group>_<FieldName>_<logicAbbrev>` exception shape
holds only for the TP/SL and trigger fields. -/
theorem c2_key_forms (engine_id : String) (group : Nat) (logic_name : String) :
    ∀ k ∈ generate_expected_set_keys engine_id group logic_name,
      (∃ f ∈ ["Initial_loT", "Mult", "Grid", "Trail", "TrailValue", "Trail_Start",
              "TrailStep", "TrailStepMethod", "TrailStepMode", "TrailStepCycle",
              "TrailStepBalance", "CloseTargets", "ResetLotOnRestart",
              "ClosePartial", "ClosePartialCycle", "ClosePartialMode",
              "ClosePartialBalance", "ClosePartialTrailStepMode",
              "StartLevel", "LastLot"],
         k = "gInput_" ++ f ++ "_" ++ get_suffix engine_id group logic_name) ∨
      (∃ f ∈ ["UseTP", "TP_Mode", "TP_Value", "UseSL", "SL_Mode", "SL_Value",
              "TriggerType", "TriggerBars", "TriggerMinutes"],
         k = "gInput_G" ++ Nat.repr group ++ "_" ++ f ++ "_" ++
           get_short engine_id logic_name) ∨
      (∃ f ∈ ["ReverseEnabled", "HedgeEnabled", "ReverseReference", "HedgeReference"],
         k = "gInput_G" ++ Nat.repr group ++ "_" ++ get_short engine_id logic_name
           ++ "_" ++ f) ∨
      (∃ f ∈ ["Reverse", "Hedge"],
         k = "gInput_G" ++ Nat.repr group ++ "_Scale_" ++
           get_short engine_id logic_name ++ "_" ++ f) ∨
      k = "gInput_" ++ get_suffix engine_id group logic_name
        ++ "_OrderCountReference" := by
  intro k hk
  simp only [generate_expected_set_keys] at hk
  rcases List.mem_append.mp hk with hk' | hk3
  · rcases List.mem_append.mp hk' with hk1 | hk2
    · simp only [List.mem_cons, List.not_mem_nil, or_false] at hk1
      rcases hk1 with rfl | rfl | rfl | rfl | rfl | rfl | rfl | rfl | rfl | rfl |
        rfl | rfl | rfl | rfl | rfl | rfl | rfl | rfl | rfl | rfl | rfl | rfl |
        rfl | rfl | rfl | rfl | rfl | rfl | rfl | rfl | rfl
      · exact Or.inl ⟨"Initial_loT", by simp, key_head_merge (by decide) _⟩
      · exact Or.inl ⟨"Mult", by simp, key_head_merge (by decide) _⟩
      · exact Or.inl ⟨"Grid", by simp, key_head_merge (by decide) _⟩
      · exact Or.inl ⟨"Trail", by simp, key_head_merge (by decide) _⟩
      · exact Or.inl ⟨"TrailValue", by simp, key_head_merge (by decide) _⟩
      · exact Or.inl ⟨"Trail_Start", by simp, key_head_merge (by decide) _⟩
      · exact Or.inl ⟨"TrailStep", by simp, key_head_merge (by decide) _⟩
      · exact Or.inl ⟨"TrailStepMethod", by simp, key_head_merge (by decide) _⟩
      · exact Or.inl ⟨"TrailStepMode", by simp, key_head_merge (by decide) _⟩
      · exact Or.inl ⟨"TrailStepCycle", by simp, key_head_merge (by decide) _⟩
      · exact Or.inl ⟨"TrailStepBalance", by simp, key_head_merge (by decide) _⟩
      · exact Or.inl ⟨"CloseTargets", by simp, key_head_merge (by decide) _⟩
      · exact Or.inr (Or.inr (Or.inr (Or.inr rfl)))
      · exact Or.inl ⟨"ResetLotOnRestart", by simp, key_head_merge (by decide) _⟩
      · exact Or.inr (Or.inl ⟨"UseTP", by simp, append3_merge _ _ _ _ _ (by decide)⟩)
      · exact Or.inr (Or.inl ⟨"TP_Mode", by simp, append3_merge _ _ _ _ _ (by decide)⟩)
      · exact Or.inr (Or.inl ⟨"TP_Value", by simp, append3_merge _ _ _ _ _ (by decide)⟩)
      · exact Or.inr (Or.inl ⟨"UseSL", by simp, append3_merge _ _ _ _ _ (by decide)⟩)
      · exact Or.inr (Or.inl ⟨"SL_Mode", by simp, append3_merge _ _ _ _ _ (by decide)⟩)
      · exact Or.inr (Or.inl ⟨"SL_Value", by simp, append3_merge _ _ _ _ _ (by decide)⟩)
      · exact Or.inr (Or.inr (Or.inl ⟨"ReverseEnabled", by simp,
          append_end_merge _ _ _ (by decide)⟩))
      · exact Or.inr (Or.inr (Or.inl ⟨"HedgeEnabled", by simp,
          append_end_merge _ _ _ (by decide)⟩))
      · exact Or.inr (Or.inr (Or.inr (Or.inl ⟨"Reverse", by simp,
          append_end_merge _ _ _ (by decide)⟩)))
      · exact Or.inr (Or.inr (Or.inr (Or.inl ⟨"Hedge", by simp,
          append_end_merge _ _ _ (by decide)⟩)))
      · exact Or.inr (Or.inr (Or.inl ⟨"ReverseReference", by simp,
          append_end_merge _ _ _ (by decide)⟩))
      · exact Or.inr (Or.inr (Or.inl ⟨"HedgeReference", by simp,
          append_end_merge _ _ _ (by decide)⟩))
      · exact Or.inl ⟨"ClosePartial", by simp, key_head_merge (by decide) _⟩
      · exact Or.inl ⟨"ClosePartialCycle", by simp, key_head_merge (by decide) _⟩
      · exact Or.inl ⟨"ClosePartialMode", by simp, key_head_merge (by decide) _⟩
      · exact Or.inl ⟨"ClosePartialBalance", by simp, key_head_merge (by decide) _⟩
      · exact Or.inl ⟨"ClosePartialTrailStepMode", by simp, key_head_merge (by decide) _⟩
    · split_ifs at hk2 with hpow
      · simp only [List.mem_cons, List.not_mem_nil, or_false] at hk2
        rcases hk2 with rfl | rfl
        · exact Or.inl ⟨"StartLevel", by simp, key_head_merge (by decide) _⟩
        · exact Or.inl ⟨"LastLot", by simp, key_head_merge (by decide) _⟩
      · exact absurd hk2 (List.not_mem_nil k)
  · split_ifs at hk3 with hg1
    · simp only [List.mem_cons, List.not_mem_nil, or_false] at hk3
      subst hg1
      rcases hk3 with rfl | rfl | rfl
      · exact Or.inr (Or.inl ⟨"TriggerType", by simp, key_head_merge (by decide) _⟩)
      · exact Or.inr (Or.inl ⟨"TriggerBars", by simp, key_head_merge (by decide) _⟩)
      · exact Or.inr (Or.inl ⟨"TriggerMinutes", by simp, key_head_merge (by decide) _⟩)
    · exact absurd hk3 (List.not_mem_nil k)

/-- C2 (counterexample): the Reverse/Hedge exception key for (A, 2, Power) is
`gInput_G2_P_ReverseEnabled`, which is in `generate_expected_set_keys` but
matches neither claimed template: it is not `gInput_G2_<FieldName>_P` (the
group-qualified form with the logic abbreviation last) for any field name,
nor `gInput_<FieldName>_P2` (the suffix form) for any field name — the
abbreviation sits before the field name instead of last. -/
theorem c2_counterexample :
    "gInput_G2_P_ReverseEnabled" ∈ generate_expected_set_keys "A" 2 "Power" ∧
    (¬ ∃ f : String, "gInput_G2_P_ReverseEnabled" = "gInput_G2_" ++ f ++ "_P") ∧
    (¬ ∃ f : String, "gInput_G2_P_ReverseEnabled" = "gInput_" ++ f ++ "_P2") := by
  refine ⟨by decide, ?_, ?_⟩
  · rintro ⟨f, hf⟩
    have hs := suffix_of_append3 hf
    revert hs
    decide
  · rintro ⟨f, hf⟩
    have hs := suffix_of_append3 hf
    revert hs
    decide

/-- C2 (witness): the theorem applied to the key `gInput_Grid_P2` of
(A, 2, Power). -/
theorem c2_key_forms_witness :
    (∃ f ∈ ["Initial_loT", "Mult", "Grid", "Trail", "TrailValue", "Trail_Start",
            "TrailStep", "TrailStepMethod", "TrailStepMode", "TrailStepCycle",
            "TrailStepBalance", "CloseTargets", "ResetLotOnRestart",
            "ClosePartial", "ClosePartialCycle", "ClosePartialMode",
            "ClosePartialBalance", "ClosePartialTrailStepMode",
            "StartLevel", "LastLot"],
       "gInput_Grid_P2" = "gInput_" ++ f ++ "_" ++ get_suffix "A" 2 "Power") ∨
    (∃ f ∈ ["UseTP", "TP_Mode", "TP_Value", "UseSL", "SL_Mode", "SL_Value",
            "TriggerType", "TriggerBars", "TriggerMinutes"],
       "gInput_Grid_P2" = "gInput_G" ++ Nat.repr 2 ++ "_" ++ f ++ "_" ++
         get_short "A" "Power") ∨
    (∃ f ∈ ["ReverseEnabled", "HedgeEnabled", "ReverseReference", "HedgeReference"],
       "gInput_Grid_P2" = "gInput_G" ++ Nat.repr 2 ++ "_" ++ get_short "A" "Power"
         ++ "_" ++ f) ∨
    (∃ f ∈ ["Reverse", "Hedge"],
       "gInput_Grid_P2" = "gInput_G" ++ Nat.repr 2 ++ "_Scale_" ++
         get_short "A" "Power" ++ "_" ++ f) ∨
    "gInput_Grid_P2" = "gInput_" ++ get_suffix "A" 2 "Power"
      ++ "_OrderCountReference" :=
  c2_key_forms "A" 2 "Power" "gInput_Grid_P2" (by decide)

/-- C7: `generate_expected_set_keys "B" 3 "Stopper"` contains
`gInput_TrailStep_BST3`, `gInput_G3_BST_ReverseEnabled` and
`gInput_Grid_BST3`, and — the group being 3, not 1 — contains no key
beginning with `gInput_G3_TriggerType_`. -/
theorem c7_concrete_example :
    "gInput_TrailStep_BST3" ∈ generate_expected_set_keys "B" 3 "Stopper" ∧
    "gInput_G3_BST_ReverseEnabled" ∈ generate_expected_set_keys "B" 3 "Stopper" ∧
    "gInput_Grid_BST3" ∈ generate_expected_set_keys "B" 3 "Stopper" ∧
    (generate_expected_set_keys "B" 3 "Stopper").all
      (fun k => ! ("gInput_G3_TriggerType_".data.isPrefixOf k.data)) = true :=
  ⟨by decide, by decide, by decide, by decide⟩

/-- C10 (counterexample): the name `power` is outside the canonical set (the
keys of `LOGIC_ABBREVIATIONS` — lookup misses and falls to the default `P`),
yet — contrary to the claim — the expected keys for it do NOT include the
StartLevel/LastLot pair, because `"power".lower() == "power"` disables the
non-Power branch. -/
theorem c10_counterexample :
    "power" ∉ LOGIC_ABBREVIATIONS.map Prod.fst ∧
    "Z" ∉ ENGINE_PREFIXES.map Prod.fst ∧
    lookupS LOGIC_ABBREVIATIONS "power" = none ∧
    lookupS ENGINE_PREFIXES "Z" = none ∧
    get_suffix "Z" 1 "power" = "P1" ∧
    "gInput_StartLevel_P1" ∉ generate_expected_set_keys "Z" 1 "power" := by
  refine ⟨by decide, by decide, by decide, by decide, by decide, by decide⟩

theorem keys_eq_of_lookup_none {e l f m : String} (g : Nat)
    (he : lookupS ENGINE_PREFIXES e = none)
    (hl : lookupS LOGIC_ABBREVIATIONS l = none)
    (he' : lookupS ENGINE_PREFIXES f = none)
    (hl' : lookupS LOGIC_ABBREVIATIONS m = none)
    (hcond : (strLower l ≠ "power") = (strLower m ≠ "power")) :
    generate_expected_set_keys e g l = generate_expected_set_keys f g m := by
  unfold generate_expected_set_keys get_suffix get_short
  rw [he, hl, he', hl']
  simp only [hcond]

/-- C10 (amended): an unknown logic name silently maps to the abbreviation
`P` and an unknown engine identifier to the empty prefix, so for every group
in the validator's range the expected keys are Power-shaped; the non-Power
StartLevel/LastLot keys are included exactly when the unknown name is not
`power` case-insensitively (so names such as `power` or `POWER`, though
outside the canonical set, get the Power treatment without those keys). -/
theorem c10_unknown_names (engine_id logic_name : String) (group : Nat)
    (hg : group ∈ List.range' 1 20)
    (he : lookupS ENGINE_PREFIXES engine_id = none)
    (hl : lookupS LOGIC_ABBREVIATIONS logic_name = none) :
    get_suffix engine_id group logic_name = "P" ++ Nat.repr group ∧
    get_short engine_id logic_name = "P" ∧
    (strLower logic_name ≠ "power" →
      "gInput_StartLevel_P" ++ Nat.repr group ∈
          generate_expected_set_keys engine_id group logic_name ∧
        "gInput_LastLot_P" ++ Nat.repr group ∈
          generate_expected_set_keys engine_id group logic_name) ∧
    (strLower logic_name = "power" →
      "gInput_StartLevel_P" ++ Nat.repr group ∉
        generate_expected_set_keys engine_id group logic_name) := by
  refine ⟨?_, ?_, fun hnp => ?_, fun hpow => ?_⟩
  · simp only [get_suffix, he, hl, Option.getD_none]
    exact key_head_merge (by decide) _
  · simp only [get_short, he, hl, Option.getD_none]
    decide
  · rw [keys_eq_of_lookup_none (f := "Z") (m := "Unknown") group he hl
      (by decide) (by decide)
      (by rw [eq_true hnp, eq_true (by decide : strLower "Unknown" ≠ "power")])]
    fin_cases hg <;> exact ⟨by decide, by decide⟩
  · rw [keys_eq_of_lookup_none (f := "Z") (m := "power") group he hl
      (by decide) (by decide)
      (by
        rw [eq_false (fun h : strLower logic_name ≠ "power" => h hpow),
          eq_false (fun h : strLower "power" ≠ "power" => h (by decide))])]
    fin_cases hg <;> decide

/-- C10 (witness): the amended theorem at engine `Z`, group 1, logic `Foo`. -/
theorem c10_unknown_names_witness :
    (1 ∈ List.range' 1 20 ∧ lookupS ENGINE_PREFIXES "Z" = none ∧
      lookupS LOGIC_ABBREVIATIONS "Foo" = none) ∧
    (get_suffix "Z" 1 "Foo" = "P" ++ Nat.repr 1 ∧
     get_short "Z" "Foo" = "P" ∧
     (strLower "Foo" ≠ "power" →
       "gInput_StartLevel_P" ++ Nat.repr 1 ∈
           generate_expected_set_keys "Z" 1 "Foo" ∧
         "gInput_LastLot_P" ++ Nat.repr 1 ∈
           generate_expected_set_keys "Z" 1 "Foo") ∧
     (strLower "Foo" = "power" →
       "gInput_StartLevel_P" ++ Nat.repr 1 ∉
         generate_expected_set_keys "Z" 1 "Foo")) :=
  ⟨⟨by decide, by decide, by decide⟩,
    c10_unknown_names "Z" "Foo" 1 (by decide) (by decide) (by decide)⟩

/-- C4 (counterexample): when the file cannot be opened, read or decoded the
decoder does NOT report a terminal error to its caller — it catches the
exception and returns the ordinary empty mapping, indistinguishable from the
decode of an empty (or all-comment) file. -/
theorem c4_counterexample :
    parse_set_file (Except.error "unreadable file") = [] ∧
    parse_set_file (Except.ok "") = parse_set_file (Except.error "unreadable file") :=
  ⟨rfl, rfl⟩

/-- C4 (amended): on any read/decode failure `parse_set_file` swallows the
exception and returns the empty mapping; the only failure signal a caller
sees is `validate_set_file_parity`'s emptiness guard, which reports the
single error `Failed to parse .set file: <name>`. -/
theorem c4_error_swallowed (e set_file : String) :
    parse_set_file (Except.error e) = [] ∧
    (validate_set_file_parity set_file (parse_set_file (Except.error e))).1 =
      ["Failed to parse .set file: " ++ set_file] :=
  ⟨rfl, rfl⟩

theorem lineEntryChars_none {line : List Char}
    (h : line = [] ∨ line.head? = some ';' ∨ line.contains '=' = false) :
    lineEntryChars line = none := by
  unfold lineEntryChars
  rcases h with rfl | h | h
  · simp
  · by_cases he : line.isEmpty = true
    · simp [he]
    · simp [he, h]
  · by_cases he : line.isEmpty = true
    · simp [he]
    · by_cases hs : line.head? = some ';'
      · simp [he, hs]
      · have h' : ¬ ('=' ∈ line) := fun hm => by
          have helem : List.elem '=' line = true := List.elem_iff.mpr hm
          rw [show line.contains '=' = List.elem '=' line from rfl, helem] at h
          cases h
        simp [he, hs, h']

theorem mapGet_upsert_self {m : List (String × String)} {k v : String} :
    mapGet (upsert m k v) k = some v := by
  induction m with
  | nil => simp [upsert, mapGet]
  | cons p rest ih =>
      obtain ⟨k', v'⟩ := p
      by_cases hk : k' = k
      · subst hk
        simp [upsert, mapGet]
      · unfold upsert
        rw [if_neg hk]
        unfold mapGet
        rw [if_neg hk]
        exact ih

theorem parse_set_lines_append_last {ls : List String} {raw k v : String}
    (h : lineEntry raw = some (k, v)) :
    parse_set_lines (ls ++ [raw]) = upsert (parse_set_lines ls) k v := by
  unfold parse_set_lines
  rw [List.foldl_append]
  simp [h]

/-- C6: the decoder's per-line behaviour.  (1) The concrete duplicate-key
file decodes `gInput_MaxOrders` to `150` (last write wins).  (2) A line is
split at its FIRST `=`, key and value trimmed.  (3) A line whose stripped
text is empty, starts with `;`, or contains no `=` contributes nothing (and
is not an error — the decoder is total).  (4) In general, the last line
contributing a key determines its value in the mapping. -/
theorem c6_decoder_behaviour :
    mapGet (parse_set_file (Except.ok
        ("gInput_MaxOrders=100\n; comment\n\ngInput_Grid=5\ngInput_MaxOrders=150")))
      "gInput_MaxOrders" = some "150" ∧
    lineEntry "  key = va=lue  " = some ("key", "va=lue") ∧
    (∀ raw : String,
      (pyStrip raw = "" ∨ (pyStrip raw).data.head? = some ';' ∨
          (pyStrip raw).data.contains '=' = false) →
        lineEntry raw = none) ∧
    (∀ (ls : List String) (raw k v : String), lineEntry raw = some (k, v) →
      mapGet (parse_set_lines (ls ++ [raw])) k = some v) := by
  refine ⟨by decide, by decide, ?_, ?_⟩
  · intro raw h
    unfold lineEntry
    refine lineEntryChars_none ?_
    rcases h with h | h | h
    · exact Or.inl (congrArg String.data h)
    · exact Or.inr (Or.inl h)
    · exact Or.inr (Or.inr h)
  · intro ls raw k v h
    rw [parse_set_lines_append_last h]
    exact mapGet_upsert_self

/-- C6 (witness): last-write-wins applied to a concrete two-line file. -/
theorem c6_decoder_behaviour_witness :
    mapGet (parse_set_lines (["gInput_MaxOrders=100"] ++ ["gInput_MaxOrders=150"]))
      "gInput_MaxOrders" = some "150" :=
  c6_decoder_behaviour.2.2.2 ["gInput_MaxOrders=100"] "gInput_MaxOrders=150"
    "gInput_MaxOrders" "150" (by decide)

theorem last_char_append {s l : String} {c : Char}
    (h : l.data.getLast? = some c) :
    (s ++ l).data.getLast? = some c := by
  rw [String.data_append, List.getLast?_append, h]
  rfl

theorem head_char_append {s : String} (r : String) {c : Char}
    (h : ∃ t, s.data = c :: t) : ∃ u, (s ++ r).data = c :: u := by
  obtain ⟨t, ht⟩ := h
  exact ⟨t ++ r.data, by rw [String.data_append, ht]; rfl⟩

theorem head?_of {s : String} {c : Char} (h : ∃ t, s.data = c :: t) :
    s.data.head? = some c := by
  obtain ⟨t, ht⟩ := h
  rw [ht]
  rfl

theorem mem_of_mem_ite {α : Type} {c : Prop} [Decidable c] {l : List α} {x : α}
    (h : x ∈ if c then l else []) : x ∈ l := by
  split at h
  · exact h
  · exact absurd h (List.not_mem_nil x)

/-- Every error line the structural validator can emit starts with `Engine`
or with `No engines` — in particular never with `Unexpected`. -/
theorem validate_errors_head (data : List (String × JVal)) :
    ∀ err ∈ (validate_json_structure data).1,
      err.data.head? = some 'E' ∨ err.data.head? = some 'N' := by
  intro err hmem
  unfold validate_json_structure at hmem
  by_cases hemp : (asArr (getEntry data "engines")).isEmpty = true
  · rw [if_pos hemp] at hmem
    simp only [List.mem_cons, List.not_mem_nil, or_false] at hmem
    subst hmem
    right
    rfl
  · rw [if_neg hemp] at hmem
    rw [List.mem_flatMap] at hmem
    obtain ⟨engine, _, hmem⟩ := hmem
    unfold engineErrors at hmem
    rw [List.mem_flatMap] at hmem
    obtain ⟨group, _, hmem⟩ := hmem
    unfold groupErrors at hmem
    rcases List.mem_append.mp hmem with hmem | hmem
    · rw [List.mem_map] at hmem
      obtain ⟨f, _, rfl⟩ := hmem
      exact Or.inl (head?_of
        (by repeat first | exact ⟨_, rfl⟩ | apply head_char_append))
    · rw [List.mem_flatMap] at hmem
      obtain ⟨logic, _, hmem⟩ := hmem
      unfold logicErrors at hmem
      rcases List.mem_append.mp hmem with hmem | hmem
      · rcases List.mem_append.mp hmem with hmem | hmem
        · rw [List.mem_map] at hmem
          obtain ⟨f, _, rfl⟩ := hmem
          exact Or.inl (head?_of
            (by repeat first | exact ⟨_, rfl⟩ | apply head_char_append))
        · have hmem := mem_of_mem_ite hmem
          rcases List.mem_append.mp hmem with hmem | hmem <;>
            · have hmem := mem_of_mem_ite hmem
              simp only [List.mem_cons, List.not_mem_nil, or_false] at hmem
              subst hmem
              exact Or.inl (head?_of
                (by repeat first | exact ⟨_, rfl⟩ | apply head_char_append))
      · have hmem := mem_of_mem_ite hmem
        rcases List.mem_append.mp hmem with hmem | hmem
        · rcases List.mem_append.mp hmem with hmem | hmem <;>
            · have hmem := mem_of_mem_ite hmem
              simp only [List.mem_cons, List.not_mem_nil, or_false] at hmem
              subst hmem
              exact Or.inl (head?_of
                (by repeat first | exact ⟨_, rfl⟩ | apply head_char_append))
        · have hmem := mem_of_mem_ite hmem
          simp only [List.mem_cons, List.not_mem_nil, or_false] at hmem
          subst hmem
          exact Or.inl (head?_of
            (by repeat first | exact ⟨_, rfl⟩ | apply head_char_append))

/-- C5 (counterexample): a document whose engine identifier set is `{A}` —
so both `B` and `C` are absent, a deviation from `{A,B,C}` — produces NO
warning at all: the validator only checks list membership of each present
identifier, never set equality. -/
theorem c5_counterexample :
    (validate_json_structure singleEngineDoc).2 = [] ∧
    (asArr (getEntry singleEngineDoc "engines")).map
      (fun e => pyStr (getEntry (asObj e) "engine_id")) = ["A"] :=
  ⟨by decide, by decide⟩

/-- C5 (amended): an engine identifier outside `{A,B,C}` produces the
warning `Unexpected engine ID: <id>` and never an error; a member of
`{A,B,C}` that is absent from the document is not checked and produces no
warning (see the counterexample). -/
theorem c5_unexpected_id_warns (data : List (String × JVal)) (engine : JVal)
    (hmem : engine ∈ asArr (getEntry data "engines"))
    (hid : engineIdExpected (getEntry (asObj engine) "engine_id") = false) :
    ("Unexpected engine ID: " ++ pyStr (getEntry (asObj engine) "engine_id")) ∈
        (validate_json_structure data).2 ∧
    ("Unexpected engine ID: " ++ pyStr (getEntry (asObj engine) "engine_id")) ∉
        (validate_json_structure data).1 := by
  constructor
  · unfold validate_json_structure
    rw [if_neg (by simp [List.isEmpty_iff, List.ne_nil_of_mem hmem])]
    refine List.mem_flatMap.mpr ⟨engine, hmem, ?_⟩
    show _ ∈ engineWarnings engine
    simp only [engineWarnings]
    rw [if_pos (by simp [hid])]
    exact List.mem_append_left _ (List.mem_append_left _ (by simp))
  · intro hbad
    rcases validate_errors_head data _ hbad with h | h <;>
      rw [head?_of (head_char_append
        (c := 'U') (pyStr (getEntry (asObj engine) "engine_id")) ⟨_, rfl⟩)] at h <;>
      exact absurd (Option.some.inj h) (by decide)

/-- C5 (witness): the amended theorem at a one-engine document with the
unexpected identifier `X`. -/
theorem c5_unexpected_id_warns_witness :
    "Unexpected engine ID: " ++ pyStr (getEntry (asObj (JVal.obj
        [("engine_id", JVal.str "X")])) "engine_id") ∈
      (validate_json_structure
        [("engines", JVal.arr [JVal.obj [("engine_id", JVal.str "X")]])]).2 ∧
    "Unexpected engine ID: " ++ pyStr (getEntry (asObj (JVal.obj
        [("engine_id", JVal.str "X")])) "engine_id") ∉
      (validate_json_structure
        [("engines", JVal.arr [JVal.obj [("engine_id", JVal.str "X")]])]).1 :=
  c5_unexpected_id_warns _ _ (List.mem_singleton.mpr rfl) (by decide)

/-- A logic object named `Power` never contributes an error ending in
`(non-Power)`: the start_level/last_lot branch is disabled and every other
message the logic can produce ends with a quote character. -/
theorem not_mem_power_block {eid : String} {gnum : Option JVal} {logic : JVal}
    {target : String}
    (hname : logicNameOf (asObj logic) = "Power")
    (hlast : target.data.getLast? = some ')') :
    target ∉ logicErrors eid gnum logic := by
  intro hmem
  simp only [logicErrors, hname] at hmem
  rw [if_neg (by decide : ¬ (strLower "Power" ≠ "power"))] at hmem
  rcases List.mem_append.mp hmem with hmem | hmem
  · rcases List.mem_append.mp hmem with hmem | hmem
    · rw [List.mem_map] at hmem
      obtain ⟨f, _, heq⟩ := hmem
      have h1 := last_char_append (s := "Engine " ++ eid ++ " Group " ++ pyStr gnum
        ++ " " ++ "Power" ++ ": Missing field '" ++ f) (l := "'") rfl
      rw [heq, hlast] at h1
      exact absurd h1 (by decide)
    · exact absurd hmem (List.not_mem_nil target)
  · have hmem := mem_of_mem_ite hmem
    rcases List.mem_append.mp hmem with hmem | hmem
    · rcases List.mem_append.mp hmem with hmem | hmem
      · have hmem := mem_of_mem_ite hmem
        rw [List.mem_singleton] at hmem
        subst hmem
        rw [last_char_append (l := ": Missing 'trigger_type'") rfl] at hlast
        simp at hlast
      · have hmem := mem_of_mem_ite hmem
        rw [List.mem_singleton] at hmem
        subst hmem
        rw [last_char_append (l := ": Missing 'trigger_bars'") rfl] at hlast
        simp at hlast
    · have hmem := mem_of_mem_ite hmem
      rw [List.mem_singleton] at hmem
      subst hmem
      rw [last_char_append (l := ": Missing 'trigger_minutes'") rfl] at hlast
      simp at hlast

theorem ne_append_at (i : Nat) {litA litB : String} (x y : String)
    (hA : i < litA.data.length) (hB : i < litB.data.length)
    (hne : litA.data[i]? ≠ litB.data[i]?) :
    litA ++ x ≠ litB ++ y := by
  intro he
  have hd := congrArg String.data he
  rw [String.data_append, String.data_append] at hd
  apply hne
  calc litA.data[i]? = (litA.data ++ x.data)[i]? :=
        (List.getElem?_append_left hA).symm
    _ = (litB.data ++ y.data)[i]? := by rw [hd]
    _ = litB.data[i]? := List.getElem?_append_left hB

theorem ne_ocr (litA pre post x : String)
    (h : litA.data.length ≠ pre.data.length + post.data.length) :
    litA ++ x ≠ pre ++ (x ++ post) := by
  intro he
  have hd := congrArg (fun s => s.data.length) he
  simp only [String.data_append, List.length_append] at hd
  omega

set_option maxHeartbeats 1000000 in
/-- C8: a logic named `Power` never requires `start_level`/`last_lot` — its
expected keys omit the `gInput_StartLevel_*`/`gInput_LastLot_*` pair for
every engine and group, and the structural validator contributes no
`(non-Power)` error for it — while each of the six other canonical logic
names always gets both expected keys, and the validator flags each of the
two fields whenever absent. -/
theorem c8_power_conditional :
    (∀ (e : String) (g : Nat),
      ("gInput_StartLevel_" ++ get_suffix e g "Power") ∉
          generate_expected_set_keys e g "Power" ∧
        ("gInput_LastLot_" ++ get_suffix e g "Power") ∉
          generate_expected_set_keys e g "Power") ∧
    (∀ (e : String) (g : Nat) (name : String),
      name ∈ ["Repower", "Scalper", "Stopper", "STO", "SCA", "RPO"] →
      ("gInput_StartLevel_" ++ get_suffix e g name) ∈
          generate_expected_set_keys e g name ∧
        ("gInput_LastLot_" ++ get_suffix e g name) ∈
          generate_expected_set_keys e g name) ∧
    (∀ (eid : String) (gnum : Option JVal) (logic : JVal),
      logicNameOf (asObj logic) = "Power" →
      ("Engine " ++ eid ++ " Group " ++ pyStr gnum ++
            " " ++ "Power" ++ ": Missing 'start_level' (non-Power)") ∉
          logicErrors eid gnum logic ∧
        ("Engine " ++ eid ++ " Group " ++ pyStr gnum ++
              " " ++ "Power" ++ ": Missing 'last_lot' (non-Power)") ∉
          logicErrors eid gnum logic) ∧
    (∀ (eid : String) (gnum : Option JVal) (logic : JVal) (name : String),
      name ∈ ["Repower", "Scalper", "Stopper", "STO", "SCA", "RPO"] →
      logicNameOf (asObj logic) = name →
      (hasField (asObj logic) "start_level" = false →
        ("Engine " ++ eid ++ " Group " ++ pyStr gnum ++ " " ++ name ++
            ": Missing 'start_level' (non-Power)") ∈ logicErrors eid gnum logic) ∧
      (hasField (asObj logic) "last_lot" = false →
        ("Engine " ++ eid ++ " Group " ++ pyStr gnum ++ " " ++ name ++
            ": Missing 'last_lot' (non-Power)") ∈ logicErrors eid gnum logic)) ∧
    ("Engine A Group 5 Repower: Missing 'start_level' (non-Power)" ∈
        (validate_json_structure powerPairDoc).1 ∧
      "Engine A Group 5 Repower: Missing 'last_lot' (non-Power)" ∈
        (validate_json_structure powerPairDoc).1 ∧
      "Engine A Group 5 Power: Missing 'start_level' (non-Power)" ∉
        (validate_json_structure powerPairDoc).1 ∧
      "Engine A Group 5 Power: Missing 'last_lot' (non-Power)" ∉
        (validate_json_structure powerPairDoc).1) := by
  refine ⟨?_, ?_, ?_, ?_, by decide, by decide, by decide, by decide⟩
  · intro e g
    constructor <;>
    · intro hmem
      simp only [generate_expected_set_keys] at hmem
      rw [if_neg (by decide : ¬ (strLower "Power" ≠ "power"))] at hmem
      rcases List.mem_append.mp hmem with hmem | hmem
      · rcases List.mem_append.mp hmem with hmem | hmem
        · simp only [List.mem_cons, List.not_mem_nil, or_false] at hmem
          rcases hmem with h|h|h|h|h|h|h|h|h|h|h|h|h|h|h|h|h|h|h|h|h|h|h|h|h|h|h|h|h|h|h <;>
            (try simp only [String.append_assoc] at h) <;>
            first
              | exact ne_append_at 7 _ _ (by decide) (by decide) (by decide) h
              | exact ne_ocr _ _ _ _ (by decide) h
        · exact absurd hmem (List.not_mem_nil _)
      · have hmem := mem_of_mem_ite hmem
        simp only [List.mem_cons, List.not_mem_nil, or_false] at hmem
        rcases hmem with h|h|h <;>
          (try simp only [String.append_assoc] at h) <;>
          exact ne_append_at 7 _ _ (by decide) (by decide) (by decide) h
  · intro e g name hnm
    have hs : strLower name ≠ "power" := by fin_cases hnm <;> decide
    constructor <;>
    · simp only [generate_expected_set_keys]
      refine List.mem_append_left _ (List.mem_append_right _ ?_)
      rw [if_pos hs]
      simp
  · intro eid gnum logic hname
    exact ⟨not_mem_power_block hname (last_char_append
        (l := ": Missing 'start_level' (non-Power)") rfl),
      not_mem_power_block hname (last_char_append
        (l := ": Missing 'last_lot' (non-Power)") rfl)⟩
  · intro eid gnum logic name hnm hname
    fin_cases hnm <;>
      refine ⟨fun habs => ?_, fun habs => ?_⟩ <;>
      · simp only [logicErrors, hname]
        rw [if_pos (by decide)]
        first
          | exact List.mem_append_left _ (List.mem_append_right _
              (List.mem_append_left _
                (by rw [if_pos (by simp [habs])]; exact List.mem_singleton.mpr rfl)))
          | exact List.mem_append_left _ (List.mem_append_right _
              (List.mem_append_right _
                (by rw [if_pos (by simp [habs])]; exact List.mem_singleton.mpr rfl)))

/-- C8 (witness): the Power branch at engine `A`, group 1, and the flagging
branch for a `Repower` logic object lacking both fields. -/
theorem c8_power_conditional_witness :
    ("gInput_StartLevel_" ++ get_suffix "A" 1 "Repower") ∈
        generate_expected_set_keys "A" 1 "Repower" ∧
      ("gInput_LastLot_" ++ get_suffix "A" 1 "Repower") ∈
        generate_expected_set_keys "A" 1 "Repower" :=
  c8_power_conditional.2.1 "A" 1 "Repower" (by decide)

set_option maxRecDepth 4096 in
/-- C9: for every engine and logic name, group 1's expected keys include the
three `gInput_G1_Trigger*` keys, and the structural validator flags each of
`trigger_type`/`trigger_bars`/`trigger_minutes` when absent from a logic in
group 1, while a group whose number is greater than 1 (here 2) is never
flagged for their absence. -/
theorem c9_group1_triggers :
    (∀ (e name : String),
      ("gInput_G1_TriggerType_" ++ get_short e name) ∈
          generate_expected_set_keys e 1 name ∧
        ("gInput_G1_TriggerBars_" ++ get_short e name) ∈
          generate_expected_set_keys e 1 name ∧
        ("gInput_G1_TriggerMinutes_" ++ get_short e name) ∈
          generate_expected_set_keys e 1 name) ∧
    (∀ (eid : String) (gnum : Option JVal) (logic : JVal),
      jEqOne gnum = true →
      (hasField (asObj logic) "trigger_type" = false →
        ("Engine " ++ eid ++ " Group 1 " ++ logicNameOf (asObj logic) ++
            ": Missing 'trigger_type'") ∈ logicErrors eid gnum logic) ∧
      (hasField (asObj logic) "trigger_bars" = false →
        ("Engine " ++ eid ++ " Group 1 " ++ logicNameOf (asObj logic) ++
            ": Missing 'trigger_bars'") ∈ logicErrors eid gnum logic) ∧
      (hasField (asObj logic) "trigger_minutes" = false →
        ("Engine " ++ eid ++ " Group 1 " ++ logicNameOf (asObj logic) ++
            ": Missing 'trigger_minutes'") ∈ logicErrors eid gnum logic)) ∧
    ("Engine A Group 1 Power: Missing 'trigger_type'" ∈
        (validate_json_structure group1Doc).1 ∧
      "Engine A Group 1 Power: Missing 'trigger_bars'" ∈
        (validate_json_structure group1Doc).1 ∧
      "Engine A Group 1 Power: Missing 'trigger_minutes'" ∈
        (validate_json_structure group1Doc).1) ∧
    ((validate_json_structure group2Doc).1 ≠ [] ∧
      ∀ err ∈ (validate_json_structure group2Doc).1,
        ¬ ("trigger".data <:+: err.data)) := by
  refine ⟨?_, ?_, ⟨by decide, by decide, by decide⟩, by decide, by decide⟩
  · intro e name
    refine ⟨?_, ?_, ?_⟩ <;>
    · simp only [generate_expected_set_keys]
      refine List.mem_append_right _ ?_
      simp
  · intro eid gnum logic h1
    refine ⟨fun habs => ?_, fun habs => ?_, fun habs => ?_⟩ <;>
    · simp only [logicErrors]
      refine List.mem_append_right _ ?_
      rw [if_pos h1]
      first
        | exact List.mem_append_left _ (List.mem_append_left _
            (by rw [if_pos (by simp [habs])]; exact List.mem_singleton.mpr rfl))
        | exact List.mem_append_left _ (List.mem_append_right _
            (by rw [if_pos (by simp [habs])]; exact List.mem_singleton.mpr rfl))
        | exact List.mem_append_right _
            (by rw [if_pos (by simp [habs])]; exact List.mem_singleton.mpr rfl)

/-- C9 (witness): the group-1 trigger keys at engine `B`, logic `Stopper`,
and the validator flagging a group-1 logic object lacking `trigger_type`. -/
theorem c9_group1_triggers_witness :
    ("gInput_G1_TriggerType_" ++ get_short "B" "Stopper") ∈
        generate_expected_set_keys "B" 1 "Stopper" ∧
      ("gInput_G1_TriggerBars_" ++ get_short "B" "Stopper") ∈
        generate_expected_set_keys "B" 1 "Stopper" ∧
      ("gInput_G1_TriggerMinutes_" ++ get_short "B" "Stopper") ∈
        generate_expected_set_keys "B" 1 "Stopper" :=
  c9_group1_triggers.1 "B" "Stopper"

/-- C3 (counterexample): on a flat file consisting of a single comment the
decoded mapping is empty, every expected key is a violation (none is
present), yet the parity validator aborts after its emptiness guard with the
single error `Failed to parse .set file: ...` — the missing-key violations
(e.g. `gInput_Group1_ReverseMode`) are NOT reported, so the returned error
list does not contain every violation present in the input. -/
theorem c3_counterexample :
    parse_set_file (Except.ok "; just a comment") = [] ∧
    (validate_set_file_parity "empty.set"
        (parse_set_file (Except.ok "; just a comment"))).1 =
      ["Failed to parse .set file: empty.set"] ∧
    hasKey (parse_set_file (Except.ok "; just a comment"))
        "gInput_Group1_ReverseMode" = false ∧
    "Missing group key: gInput_Group1_ReverseMode" ∉
      (validate_set_file_parity "empty.set"
        (parse_set_file (Except.ok "; just a comment"))).1 :=
  ⟨by decide, by decide, by decide, by decide⟩

/-- C3 (amended): except for the two degenerate guards (a document with no
engines; a flat file whose decoded mapping is empty), the validators never
abort early and accumulate every violation.  Structurally: for every group
reached by the walk, every missing group-level required field is reported,
and every error any of its logics contributes (missing required fields and
the conditional non-Power and group-1 fields) is in the returned error list.
For parity: whenever the decoded mapping is non-empty, every expected
group-level and logic-level key absent from it is reported as missing. -/
theorem c3_no_early_abort :
    (∀ (data : List (String × JVal)) (engine : JVal),
      engine ∈ asArr (getEntry data "engines") →
      ∀ group ∈ asArr (getEntry (asObj engine) "groups"),
      (∀ f ∈ REQUIRED_GROUP_FIELDS, hasField (asObj group) f = false →
        ("Engine " ++ pyStr (getEntry (asObj engine) "engine_id") ++ " Group " ++
            pyStr (getEntry (asObj group) "group_number") ++
            ": Missing group field '" ++ f ++ "'") ∈
          (validate_json_structure data).1) ∧
      (∀ logic ∈ asArr (getEntry (asObj group) "logics"),
        ∀ msg ∈ logicErrors (pyStr (getEntry (asObj engine) "engine_id"))
          (getEntry (asObj group) "group_number") logic,
        msg ∈ (validate_json_structure data).1)) ∧
    (∀ (set_file : String) (set_values : List (String × String)),
      set_values.isEmpty = false →
      ∀ e ∈ ["A", "B", "C"], ∀ g ∈ List.range' 1 20,
      (∀ k ∈ generate_group_level_keys g, hasKey set_values k = false →
        ("Missing group key: " ++ k) ∈
          (validate_set_file_parity set_file set_values).1) ∧
      (∀ l ∈ PARITY_LOGIC_NAMES, ∀ k ∈ generate_expected_set_keys e g l,
        hasKey set_values k = false →
        ("Missing logic key: " ++ k) ∈
          (validate_set_file_parity set_file set_values).1)) := by
  constructor
  · intro data engine he group hg
    have hne : ¬ (asArr (getEntry data "engines")).isEmpty = true := by
      simp [List.isEmpty_iff, List.ne_nil_of_mem he]
    constructor
    · intro f hf habs
      show _ ∈ (validate_json_structure data).1
      simp only [validate_json_structure]
      rw [if_neg hne]
      refine List.mem_flatMap.mpr ⟨engine, he, ?_⟩
      show _ ∈ engineErrors engine
      simp only [engineErrors]
      refine List.mem_flatMap.mpr ⟨group, hg, ?_⟩
      show _ ∈ groupErrors _ group
      simp only [groupErrors]
      refine List.mem_append_left _ ?_
      exact List.mem_map.mpr ⟨f,
        List.mem_filter.mpr ⟨hf, by simp [habs]⟩, rfl⟩
    · intro logic hl msg hmsg
      show _ ∈ (validate_json_structure data).1
      simp only [validate_json_structure]
      rw [if_neg hne]
      refine List.mem_flatMap.mpr ⟨engine, he, ?_⟩
      show _ ∈ engineErrors engine
      simp only [engineErrors]
      refine List.mem_flatMap.mpr ⟨group, hg, ?_⟩
      show _ ∈ groupErrors _ group
      simp only [groupErrors]
      refine List.mem_append_right _ ?_
      exact List.mem_flatMap.mpr ⟨logic, hl, hmsg⟩
  · intro set_file set_values hne e he g hg
    constructor
    · intro k hk habs
      show _ ∈ (validate_set_file_parity set_file set_values).1
      simp only [validate_set_file_parity]
      rw [if_neg (by simp [hne])]
      refine List.mem_flatMap.mpr ⟨e, he, ?_⟩
      refine List.mem_flatMap.mpr ⟨g, hg, ?_⟩
      refine List.mem_append_left _ ?_
      exact List.mem_map.mpr ⟨k,
        List.mem_filter.mpr ⟨hk, by simp [habs]⟩, rfl⟩
    · intro l hl k hk habs
      show _ ∈ (validate_set_file_parity set_file set_values).1
      simp only [validate_set_file_parity]
      rw [if_neg (by simp [hne])]
      refine List.mem_flatMap.mpr ⟨e, he, ?_⟩
      refine List.mem_flatMap.mpr ⟨g, hg, ?_⟩
      refine List.mem_append_right _ ?_
      refine List.mem_flatMap.mpr ⟨l, hl, ?_⟩
      exact List.mem_map.mpr ⟨k,
        List.mem_filter.mpr ⟨hk, by simp [habs]⟩, rfl⟩

/-- C3 (witness): a one-entry mapping is missing `gInput_Group1_ReverseMode`
and the parity validator reports it. -/
theorem c3_no_early_abort_witness :
    ("Missing group key: " ++ "gInput_Group1_ReverseMode") ∈
      (validate_set_file_parity "f.set" [("gInput_MaxOrders", "100")]).1 :=
  (c3_no_early_abort.2 "f.set" [("gInput_MaxOrders", "100")] (by decide)
    "A" (by decide) 1 (by decide)).1 "gInput_Group1_ReverseMode"
    (by decide) (by decide)
